import Mathlib

/-!
Verification of the ECB exchange-rates client (`ecb-exchange-rates-ts`).

This file shallowly embeds the TypeScript sources:
- `src/parsers/sdmx-json-parser.ts` (`parseJsonResponse`, `parseSdmxJson`,
  `findDimensionIndex`, `findObservationDimensionIndex`),
- `src/client.ts` (`EcbClient`: `getRate`, `getSingleCurrencyRates`,
  `transformToMultiCurrencyResult`, `fetchAndParse`, `resolveQuery`, `convert`),
- `src/utils/validation.ts` (`validateQuery`),
- `src/errors/index.ts` (error classes),
- `src/__tests__/fixtures.ts` (the two SDMX fixtures),
and proves the specified properties about them.

Modelling conventions:
- JavaScript numbers appearing in JSON payloads are modelled as exact decimals
  (`JNum`: mantissa × 10 ^ exponent); the decoder performs no arithmetic on
  them, only `null`/`undefined` tests, so this is faithful where it matters.
- `undefined`/absent values are modelled with `Option`; a thrown exception is
  modelled as `Except.error`.
- JS objects used as string-keyed records (`dataSet.series`,
  `series.observations`) are modelled as association lists in document order.
- JS `Map` is modelled as an association list with insertion-order semantics
  (`mapSet` updates an existing key in place, otherwise appends).
-/

namespace Ecb

/-- Decimal representation of a JSON number: the value `m * 10 ^ e`.
Two representations with the same numeric value (for instance `103e-2` and
`1030e-3`) are distinct terms; the decoder never compares or computes with
rates, so this exactness is unobservable to it. -/
structure JNum where
  m : Int
  e : Int
  deriving Repr, DecidableEq

/-- Numeric value of a decimal. -/
def JNum.toRat (n : JNum) : Rat :=
  if 0 ≤ n.e then (n.m * 10 ^ n.e.toNat : Int) else (n.m : Rat) / (10 ^ (-n.e).toNat : Int)

/-- Embeds `SdmxValue` from `src/types/index.ts`, restricted to the field the
decoder reads: `id?: string`. -/
structure SdmxValue where
  id : Option String
  deriving Repr, DecidableEq

/-- Embeds `SdmxDimension` from `src/types/index.ts`, restricted to the fields
the decoder reads. `values` is declared required in TypeScript but the decoder
guards against its absence at runtime (`!currencyValues` check), so it is
modelled as optional. -/
structure SdmxDimension where
  id : String
  values : Option (List SdmxValue)
  deriving Repr, DecidableEq

/-- Embeds `SdmxSeries`: `observations` is a string-keyed record of observation
tuples, each tuple a list of numbers-or-nulls; modelled as an association list
in document order. The unused `attributes` field is kept for shape fidelity. -/
structure SdmxSeries where
  attributes : List (Option JNum)
  observations : List (String × List (Option JNum))
  deriving Repr, DecidableEq

/-- Embeds `SdmxDataSet`. `series` is declared required in TypeScript but the
decoder guards its absence (`if (!series) continue`), so it is optional here. -/
structure SdmxDataSet where
  series : Option (List (String × SdmxSeries))
  deriving Repr, DecidableEq

/-- Embeds the `dimensions` object of `SdmxStructure`. -/
structure SdmxDimensions where
  series : List SdmxDimension
  observation : List SdmxDimension
  deriving Repr, DecidableEq

/-- Embeds `SdmxStructure`, restricted to the field the decoder reads.
`dimensions` is optional because the decoder checks `!structure?.dimensions`. -/
structure SdmxStructure where
  dimensions : Option SdmxDimensions
  deriving Repr, DecidableEq

/-- Embeds `SdmxJsonResponse`, restricted to the fields the decoder reads
(`header` is ignored by all code under verification). Both fields are optional
because the decoder guards `!dataSets` and `structure?.`. -/
structure SdmxJsonResponse where
  dataSets : Option (List SdmxDataSet)
  «structure» : Option SdmxStructure
  deriving Repr, DecidableEq

/-- Embeds `ExchangeRateObservation` from `src/types/index.ts`. -/
structure ExchangeRateObservation where
  date : String
  currency : String
  baseCurrency : String
  rate : JNum
  deriving Repr, DecidableEq

/-- Embeds the error classes of `src/errors/index.ts` (one constructor per
class, carrying the constructor arguments that identify the error), plus
`typeError` modelling a raw JavaScript `TypeError` (thrown by destructuring
`undefined`, which is not an `EcbError` subclass). -/
inductive EcbError where
  | parseError (message : String)
  | validationError (message : String)
  | apiError (statusCode : Nat) (statusText : String)
  | networkError (message : String)
  | noDataError (currencies : List String) (startDate : String) (endDate : Option String)
  | typeError (message : String)
  deriving Repr, DecidableEq

/-- Equality test on `Except` values, used to evaluate the model on concrete
documents. -/
instance instDecidableEqExcept {ε α : Type} [DecidableEq ε] [DecidableEq α] :
    DecidableEq (Except ε α) := fun
  | .ok a, .ok b => if h : a = b then .isTrue (by rw [h]) else .isFalse (by simp [h])
  | .ok _, .error _ => .isFalse (by simp)
  | .error _, .ok _ => .isFalse (by simp)
  | .error a, .error b => if h : a = b then .isTrue (by rw [h]) else .isFalse (by simp [h])

/-- Splits a character list on a separator character; models
`String.prototype.split` with a one-character separator: the result has one
(possibly empty) piece per separator-delimited span, and splitting the empty
string yields `[[]]`. -/
def splitChars (sep : Char) : List Char → List (List Char)
  | [] => [[]]
  | c :: rest =>
    let r := splitChars sep rest
    if c = sep then [] :: r
    else
      match r with
      | h :: t => (c :: h) :: t
      | [] => [[c]]

/-- Models `seriesKey.split(":")` over the model's strings. -/
def jsSplitOnColon (s : String) : List String :=
  (splitChars ':' s.data).map String.mk

/-- Value of a non-empty all-digit character list. -/
def digitsToNat (l : List Char) : Nat :=
  l.foldl (fun n c => n * 10 + (c.toNat - 48)) 0

/-- Models the JavaScript coercion `Number(segment)` followed by array
indexing, as in `seriesKey.split(":").map(Number)` and `Number(obsKey)`:
a string of decimal digits denotes that index, the empty string coerces to
`0`, and any other string (producing `NaN`, a negative or fractional number)
indexes as `undefined`, collapsed to `none`. -/
def jsArrayIndex (s : String) : Option Nat :=
  match s.data with
  | [] => some 0
  | l => if l.all Char.isDigit then some (digitsToNat l) else none

/-- Embeds `findDimensionIndex` (sdmx-json-parser.ts lines 91-97):
`dims.findIndex((d) => d.id === id)`, throwing `EcbParseError` on `-1`. -/
def findDimensionIndex (dims : List SdmxDimension) (id : String) : Except EcbError Nat :=
  match dims.findIdx? (fun d => d.id == id) with
  | some index => .ok index
  | none => .error (.parseError s!"Missing series dimension \"{id}\" in SDMX-JSON structure.")

/-- Embeds `findObservationDimensionIndex` (sdmx-json-parser.ts lines 99-108):
identical to `findDimensionIndex` except for the error message. -/
def findObservationDimensionIndex (dims : List SdmxDimension) (id : String) : Except EcbError Nat :=
  match dims.findIdx? (fun d => d.id == id) with
  | some index => .ok index
  | none => .error (.parseError s!"Missing observation dimension \"{id}\" in SDMX-JSON structure.")

/-- Embeds the observation loop body of `parseJsonResponse` (lines 63-71):
parse the observation key, look the date up in the time vocabulary, read
`obsValues[0]` as the rate, and skip (`none`) when the date is falsy
(`undefined` or the empty string) or the rate is `null`/`undefined`. -/
def decodeObservation (timeValues : List SdmxValue) (currency baseCurrency : String)
    (entry : String × List (Option JNum)) : Option ExchangeRateObservation :=
  let date := ((jsArrayIndex entry.1).bind fun timeIdx => timeValues[timeIdx]?).bind (·.id)
  let rate := entry.2[0]?.join
  match date, rate with
  | some d, some r => if d.isEmpty then none else some ⟨d, currency, baseCurrency, r⟩
  | _, _ => none

/-- Embeds the series loop body of `parseJsonResponse` (lines 48-72): split the
series key on `":"`, coerce each segment with `Number`, read the segments at
the resolved `CURRENCY` and `CURRENCY_DENOM` positions (`continue` when either
position is past the end of the key), look both ids up in their vocabularies
(`continue` when either is falsy: `undefined` or empty), then decode every
observation of the series. -/
def decodeSeries (currencyDimIndex denomDimIndex : Nat)
    (currencyValues denomValues timeValues : List SdmxValue)
    (entry : String × SdmxSeries) : List ExchangeRateObservation :=
  let dimIndices := (jsSplitOnColon entry.1).map jsArrayIndex
  match dimIndices[currencyDimIndex]?, dimIndices[denomDimIndex]? with
  | some currencyIdx, some denomIdx =>
    let currency := (currencyIdx.bind fun i => currencyValues[i]?).bind (·.id)
    let baseCurrency := (denomIdx.bind fun i => denomValues[i]?).bind (·.id)
    match currency, baseCurrency with
    | some c, some b =>
      if c.isEmpty || b.isEmpty then []
      else entry.2.observations.filterMap (decodeObservation timeValues c b)
    | _, _ => []
  | _, _ => []

/-- Resolved structural data of a response: the three dimension positions and
the three value vocabularies extracted by `parseJsonResponse` lines 27-41. -/
structure ResolvedStructure where
  currencyDimIndex : Nat
  denomDimIndex : Nat
  timeDimIndex : Nat
  currencyValues : List SdmxValue
  denomValues : List SdmxValue
  timeValues : List SdmxValue
  deriving Repr, DecidableEq

/-- Embeds the structural prefix of `parseJsonResponse` (lines 22-41): the
`structure.dimensions` presence check, the three dimension-index resolutions,
and the three vocabulary extractions, each failing with `EcbParseError`. -/
def resolveStructure (struct? : Option SdmxStructure) : Except EcbError ResolvedStructure :=
  match struct?.bind (·.dimensions) with
  | none => .error (.parseError "SDMX-JSON response missing structure.dimensions.")
  | some dims =>
    match findDimensionIndex dims.series "CURRENCY" with
    | .error e => .error e
    | .ok currencyDimIndex =>
      match findDimensionIndex dims.series "CURRENCY_DENOM" with
      | .error e => .error e
      | .ok denomDimIndex =>
        match findObservationDimensionIndex dims.observation "TIME_PERIOD" with
        | .error e => .error e
        | .ok timeDimIndex =>
          match dims.series[currencyDimIndex]?.bind (·.values),
                dims.series[denomDimIndex]?.bind (·.values),
                dims.observation[timeDimIndex]?.bind (·.values) with
          | some currencyValues, some denomValues, some timeValues =>
            .ok ⟨currencyDimIndex, denomDimIndex, timeDimIndex,
                 currencyValues, denomValues, timeValues⟩
          | _, _, _ => .error (.parseError "SDMX-JSON response missing dimension values.")

/-- Embeds `parseJsonResponse` (sdmx-json-parser.ts lines 16-76): empty or
absent `dataSets` yield `[]`; otherwise the structural prefix is resolved
(see `resolveStructure`) and every series of every data set is decoded, a
data set without a `series` record being skipped. The output order is the
document iteration order of the source's nested loops. -/
def parseJsonResponse (data : SdmxJsonResponse) : Except EcbError (List ExchangeRateObservation) :=
  match data.dataSets with
  | none => .ok []
  | some dataSets =>
    if dataSets.length = 0 then .ok []
    else
      match resolveStructure data.«structure» with
      | .error e => .error e
      | .ok r =>
        .ok (dataSets.flatMap fun dataSet =>
          match dataSet.series with
          | none => []
          | some series =>
            series.flatMap
              (decodeSeries r.currencyDimIndex r.denomDimIndex
                r.currencyValues r.denomValues r.timeValues))

/-- Embeds the fixture `SINGLE_CURRENCY_RESPONSE` of `src/__tests__/fixtures.ts`
(header omitted, numbers as exact decimals). -/
def SINGLE_CURRENCY_RESPONSE : SdmxJsonResponse where
  dataSets := some [
    { series := some [
        ("0:0:0:0:0",
         { attributes := [some ⟨0, 0⟩, none, some ⟨0, 0⟩],
           observations := [
             ("0", [some ⟨103, -2⟩, some ⟨0, 0⟩, some ⟨0, 0⟩, none, none]),
             ("1", [some ⟨10303, -4⟩, some ⟨0, 0⟩, some ⟨0, 0⟩, none, none])] })] }]
  «structure» := some
    { dimensions := some
        { series := [
            { id := "FREQ", values := some [{ id := some "D" }] },
            { id := "CURRENCY", values := some [{ id := some "USD" }] },
            { id := "CURRENCY_DENOM", values := some [{ id := some "EUR" }] },
            { id := "EXR_TYPE", values := some [{ id := some "SP00" }] },
            { id := "EXR_SUFFIX", values := some [{ id := some "A" }] }],
          observation := [
            { id := "TIME_PERIOD",
              values := some [{ id := some "2025-01-15" }, { id := some "2025-01-16" }] }] } }

/-- Embeds the fixture `MULTI_CURRENCY_RESPONSE` of `src/__tests__/fixtures.ts`:
two series (USD and GBP against EUR) with two dated observations each. -/
def MULTI_CURRENCY_RESPONSE : SdmxJsonResponse where
  dataSets := some [
    { series := some [
        ("0:0:0:0:0",
         { attributes := [],
           observations := [
             ("0", [some ⟨103, -2⟩, some ⟨0, 0⟩]),
             ("1", [some ⟨10303, -4⟩, some ⟨0, 0⟩])] }),
        ("0:1:0:0:0",
         { attributes := [],
           observations := [
             ("0", [some ⟨8442, -4⟩, some ⟨0, 0⟩]),
             ("1", [some ⟨8451, -4⟩, some ⟨0, 0⟩])] })] }]
  «structure» := some
    { dimensions := some
        { series := [
            { id := "FREQ", values := some [{ id := some "D" }] },
            { id := "CURRENCY", values := some [{ id := some "USD" }, { id := some "GBP" }] },
            { id := "CURRENCY_DENOM", values := some [{ id := some "EUR" }] },
            { id := "EXR_TYPE", values := some [{ id := some "SP00" }] },
            { id := "EXR_SUFFIX", values := some [{ id := some "A" }] }],
          observation := [
            { id := "TIME_PERIOD",
              values := some [{ id := some "2025-01-15" }, { id := some "2025-01-16" }] }] } }

/-- Models `Map.prototype.set` (and property assignment on a plain JS object):
an existing key is updated in place, keeping its position; a new key is
appended at the end. Iteration order of the list is JS insertion order. -/
def mapSet {α : Type} (m : List (String × α)) (k : String) (v : α) : List (String × α) :=
  match m with
  | [] => [(k, v)]
  | (k0, v0) :: rest => if k0 = k then (k, v) :: rest else (k0, v0) :: mapSet rest k v

/-- Modelled from the spec: the JSON document values produced by the platform
`JSON.parse` ("an object with `header` ..., `dataSets` ..., and `structure`",
parsed from UTF-8 text). Numbers are exact decimals (`JNum`); object fields
are kept in document order with JS duplicate-key semantics applied at parse
time (last value wins, first position kept). -/
inductive Json where
  | null
  | bool (b : Bool)
  | num (n : JNum)
  | str (s : String)
  | arr (elems : List Json)
  | obj (fields : List (String × Json))

/-- Character of a hexadecimal digit (lowercase), for string escapes. -/
def hexDigitChar (n : Nat) : Char :=
  if n < 10 then Char.ofNat (48 + n) else Char.ofNat (87 + n)

/-- JSON escape of one string character, as produced by `JSON.stringify`:
the two-character escapes for quote, backslash and the common control
characters, `\u00xx` for the remaining control characters, and every other
character unescaped. -/
def escapeChar (c : Char) : List Char :=
  if c = '"' then ['\\', '"']
  else if c = '\\' then ['\\', '\\']
  else if c = '\x08' then ['\\', 'b']
  else if c = '\x09' then ['\\', 't']
  else if c = '\x0a' then ['\\', 'n']
  else if c = '\x0c' then ['\\', 'f']
  else if c = '\x0d' then ['\\', 'r']
  else if c.toNat < 32 then ['\\', 'u', '0', '0', hexDigitChar (c.toNat / 16), hexDigitChar (c.toNat % 16)]
  else [c]

/-- JSON escape of a whole string body. -/
def escapeChars (l : List Char) : List Char :=
  l.flatMap escapeChar

/-- Decimal digits of a natural number, most significant first, no leading
zeros (`natChars 0 = ['0']`). -/
def natChars (n : Nat) : List Char :=
  if h : n < 10 then [Char.ofNat (48 + n)]
  else natChars (n / 10) ++ [Char.ofNat (48 + n % 10)]
  decreasing_by exact Nat.div_lt_self (by omega) (by omega)

/-- Decimal rendering of an integer. -/
def intChars (i : Int) : List Char :=
  if i < 0 then '-' :: natChars (-i).toNat else natChars i.toNat

/-- JSON text of a decimal number: plain integer when the exponent is zero,
mantissa`e`exponent otherwise (a numerically faithful rendering of the
number `JSON.stringify` would emit). -/
def printNum (n : JNum) : List Char :=
  if n.e = 0 then intChars n.m else intChars n.m ++ 'e' :: intChars n.e

mutual

/-- Modelled from the spec: JSON text production (`serialize` is "JSON
serialization", the platform `JSON.stringify`): no whitespace, fields and
elements in document order. -/
def Json.printChars : Json → List Char
  | .null => 'n' :: 'u' :: 'l' :: 'l' :: []
  | .bool true => 't' :: 'r' :: 'u' :: 'e' :: []
  | .bool false => 'f' :: 'a' :: 'l' :: 's' :: 'e' :: []
  | .num n => printNum n
  | .str s => '"' :: (escapeChars s.data ++ ['"'])
  | .arr elems => '[' :: (printElemsChars elems ++ [']'])
  | .obj fields => '\x7b' :: (printFieldsChars fields ++ ['\x7d'])

/-- Comma-separated rendering of array elements. -/
def printElemsChars : List Json → List Char
  | [] => []
  | [j] => j.printChars
  | j :: rest => j.printChars ++ ',' :: printElemsChars rest

/-- Comma-separated rendering of object fields (`"key":value`). -/
def printFieldsChars : List (String × Json) → List Char
  | [] => []
  | [(k, v)] => '"' :: (escapeChars k.data ++ '"' :: ':' :: v.printChars)
  | (k, v) :: rest =>
    ('"' :: (escapeChars k.data ++ '"' :: ':' :: v.printChars)) ++ ',' :: printFieldsChars rest

end

/-- JSON text of a value, as a string. -/
def Json.print (j : Json) : String :=
  ⟨j.printChars⟩

/-- Value of a hexadecimal digit character. -/
def hexVal (c : Char) : Option Nat :=
  if '0' ≤ c ∧ c ≤ '9' then some (c.toNat - 48)
  else if 'a' ≤ c ∧ c ≤ 'f' then some (c.toNat - 87)
  else if 'A' ≤ c ∧ c ≤ 'F' then some (c.toNat - 55)
  else none

/-- The four JSON whitespace characters. -/
def isJsonWs (c : Char) : Bool :=
  c = ' ' || c = '\x09' || c = '\x0a' || c = '\x0d'

/-- Drops leading JSON whitespace. -/
def skipWs : List Char → List Char
  | [] => []
  | c :: rest => if isJsonWs c then skipWs rest else c :: rest

/-- Parses the body of a JSON string after the opening quote, up to and past
the closing quote, resolving the escape sequences of the JSON grammar and
rejecting unescaped control characters. (`\uXXXX` escapes in the surrogate
range are not combined into pairs; none are produced by `escapeChar`.) -/
def parseStringBody : List Char → Option (List Char × List Char)
  | [] => none
  | '"' :: rest => some ([], rest)
  | '\\' :: '"' :: rest => (parseStringBody rest).map fun (s, r) => ('"' :: s, r)
  | '\\' :: '\\' :: rest => (parseStringBody rest).map fun (s, r) => ('\\' :: s, r)
  | '\\' :: '/' :: rest => (parseStringBody rest).map fun (s, r) => ('/' :: s, r)
  | '\\' :: 'b' :: rest => (parseStringBody rest).map fun (s, r) => ('\x08' :: s, r)
  | '\\' :: 't' :: rest => (parseStringBody rest).map fun (s, r) => ('\x09' :: s, r)
  | '\\' :: 'n' :: rest => (parseStringBody rest).map fun (s, r) => ('\x0a' :: s, r)
  | '\\' :: 'f' :: rest => (parseStringBody rest).map fun (s, r) => ('\x0c' :: s, r)
  | '\\' :: 'r' :: rest => (parseStringBody rest).map fun (s, r) => ('\x0d' :: s, r)
  | '\\' :: 'u' :: h1 :: h2 :: h3 :: h4 :: rest =>
    match hexVal h1, hexVal h2, hexVal h3, hexVal h4 with
    | some a, some b, some c, some d =>
      (parseStringBody rest).map fun (s, r) =>
        (Char.ofNat (a * 4096 + b * 256 + c * 16 + d) :: s, r)
    | _, _, _, _ => none
  | '\\' :: _ => none
  | c :: rest =>
    if c.toNat < 32 then none
    else (parseStringBody rest).map fun (s, r) => (c :: s, r)

/-- Consumes a maximal run of decimal digits, extending the accumulated value
and digit count. -/
def parseDigitsAux : List Char → Nat → Nat → Nat × Nat × List Char
  | c :: rest, acc, cnt =>
    if c.isDigit then parseDigitsAux rest (acc * 10 + (c.toNat - 48)) (cnt + 1)
    else (acc, cnt, c :: rest)
  | [], acc, cnt => (acc, cnt, [])

/-- Parses the integer part of a JSON number: a single `0`, or a digit run
not starting with `0` (the JSON grammar rejects leading zeros). -/
def parseIntPart : List Char → Option (Nat × List Char)
  | [] => none
  | c :: rest =>
    if c = '0' then
      match rest with
      | [] => some (0, [])
      | c2 :: _ => if c2.isDigit then none else some (0, rest)
    else if c.isDigit then
      let (v, _, r) := parseDigitsAux (c :: rest) 0 0
      some (v, r)
    else none

/-- Parses an optional fraction part, returning its digits' value and count. -/
def parseFracPart : List Char → Option (Nat × Nat × List Char)
  | [] => some (0, 0, [])
  | c :: rest =>
    if c = '.' then
      let (v, cnt, r) := parseDigitsAux rest 0 0
      if cnt = 0 then none else some (v, cnt, r)
    else some (0, 0, c :: rest)

/-- Parses the signed digits of an exponent after `e`/`E`. -/
def parseExpTail (l : List Char) : Option (Int × List Char) :=
  let (sign, after) : Int × List Char :=
    match l with
    | [] => (1, [])
    | c :: r => if c = '+' then (1, r) else if c = '-' then (-1, r) else (1, c :: r)
  let (v, cnt, r) := parseDigitsAux after 0 0
  if cnt = 0 then none else some (sign * v, r)

/-- Parses an optional exponent part. -/
def parseExpPart : List Char → Option (Int × List Char)
  | [] => some (0, [])
  | c :: rest =>
    if c = 'e' ∨ c = 'E' then parseExpTail rest else some (0, c :: rest)

/-- Parses a JSON number per the JSON grammar (`-? int frac? exp?`) into its
exact decimal value: mantissa = all integer and fraction digits, exponent =
written exponent minus the fraction length. -/
def parseNumber (input : List Char) : Option (JNum × List Char) :=
  let (neg, afterSign) : Bool × List Char :=
    match input with
    | [] => (false, [])
    | c :: rest => if c = '-' then (true, rest) else (false, c :: rest)
  match parseIntPart afterSign with
  | none => none
  | some (ip, r1) =>
    match parseFracPart r1 with
    | none => none
    | some (fv, fc, r2) =>
      match parseExpPart r2 with
      | none => none
      | some (ev, r3) =>
        let mag : Int := ip * 10 ^ fc + fv
        some (⟨if neg then -mag else mag, ev - fc⟩, r3)

/-- JS object construction from parsed fields: later duplicate keys overwrite
earlier ones in place (`mapSet` semantics). -/
def buildObj (fields : List (String × Json)) : List (String × Json) :=
  fields.foldl (fun m kv => mapSet m kv.1 kv.2) []

mutual

/-- Modelled from the spec: the platform `JSON.parse` value parser
(`parseDocument`'s text → structure step), implementing the JSON grammar over
characters with explicit fuel (decremented at every recursion; `jsonParse`
supplies enough for any input it accepts). Returns the parsed value and the
unconsumed remainder. -/
def parseValue : Nat → List Char → Option (Json × List Char)
  | 0, _ => none
  | fuel + 1, input =>
    match skipWs input with
    | 'n' :: 'u' :: 'l' :: 'l' :: rest => some (.null, rest)
    | 't' :: 'r' :: 'u' :: 'e' :: rest => some (.bool true, rest)
    | 'f' :: 'a' :: 'l' :: 's' :: 'e' :: rest => some (.bool false, rest)
    | '"' :: rest => (parseStringBody rest).map fun (s, r) => (.str ⟨s⟩, r)
    | '[' :: rest =>
      (match skipWs rest with
       | ']' :: r => some (.arr [], r)
       | l => (parseElems fuel l).map fun (elems, r) => (.arr elems, r))
    | '\x7b' :: rest =>
      (match skipWs rest with
       | '\x7d' :: r => some (.obj [], r)
       | l => (parseFields fuel l).map fun (fields, r) => (.obj (buildObj fields), r))
    | l => (parseNumber l).map fun (n, r) => (.num n, r)

/-- Parses one or more comma-separated array elements up to and past `]`. -/
def parseElems : Nat → List Char → Option (List Json × List Char)
  | 0, _ => none
  | fuel + 1, input => do
    let (v, r) ← parseValue fuel input
    match skipWs r with
    | ',' :: r2 =>
      let (vs, r3) ← parseElems fuel r2
      some (v :: vs, r3)
    | ']' :: r2 => some ([v], r2)
    | _ => none

/-- Parses one or more comma-separated object fields up to and past the
closing brace. -/
def parseFields : Nat → List Char → Option (List (String × Json) × List Char)
  | 0, _ => none
  | fuel + 1, input =>
    match skipWs input with
    | '"' :: r0 => do
      let (k, r1) ← parseStringBody r0
      match skipWs r1 with
      | ':' :: r2 => do
        let (v, r3) ← parseValue fuel r2
        match skipWs r3 with
        | ',' :: r4 =>
          let (fs, r5) ← parseFields fuel r4
          some ((⟨k⟩, v) :: fs, r5)
        | '\x7d' :: r4 => some ([(⟨k⟩, v)], r4)
        | _ => none
      | _ => none
    | _ => none

end

/-- Modelled from the spec: the platform `JSON.parse` — parses a complete
JSON text, rejecting trailing content other than whitespace. -/
def jsonParse (s : String) : Option Json :=
  match parseValue (s.data.length + 1) s.data with
  | some (j, rest) => if skipWs rest = [] then some j else none
  | none => none


/-- No string occurs twice in the list (key lists of JS records). -/
def nodupKeysBool : List String → Bool
  | [] => true
  | k :: rest => !rest.contains k && nodupKeysBool rest

mutual

/-- A JSON value as the JS runtime would hold it: every object's keys are
distinct (`JSON.parse` collapses duplicates, so parsed values always satisfy
this). -/
def Json.wfKeys : Json → Bool
  | .null => true
  | .bool _ => true
  | .num _ => true
  | .str _ => true
  | .arr elems => wfKeysElems elems
  | .obj fields => nodupKeysBool (fields.map Prod.fst) && wfKeysFields fields

/-- `Json.wfKeys` over array elements. -/
def wfKeysElems : List Json → Bool
  | [] => true
  | j :: rest => j.wfKeys && wfKeysElems rest

/-- `Json.wfKeys` over object field values. -/
def wfKeysFields : List (String × Json) → Bool
  | [] => true
  | kv :: rest => kv.2.wfKeys && wfKeysFields rest

end

mutual

/-- Fuel measure of a JSON value: an upper bound on the parser recursion
depth needed to read its printed text back. -/
def Json.jsize : Json → Nat
  | .null => 1
  | .bool _ => 1
  | .num _ => 1
  | .str _ => 1
  | .arr elems => jsizeElems elems + 1
  | .obj fields => jsizeFields fields + 1

/-- `Json.jsize` summed over array elements, one unit per separator step. -/
def jsizeElems : List Json → Nat
  | [] => 0
  | j :: rest => j.jsize + jsizeElems rest + 1

/-- `Json.jsize` summed over object fields, one unit per separator step. -/
def jsizeFields : List (String × Json) → Nat
  | [] => 0
  | kv :: rest => kv.2.jsize + jsizeFields rest + 1

end

/-- A document all of whose JS-record-backed association lists (series per
data set, observations per series) have distinct keys — the structural
validity a value held by the JS runtime always has. -/
def wfDoc (x : SdmxJsonResponse) : Prop :=
  ∀ ds ∈ x.dataSets.getD [], ∀ l, ds.series = some l →
    nodupKeysBool (l.map Prod.fst) = true ∧
    ∀ e ∈ l, nodupKeysBool (e.2.observations.map Prod.fst) = true

/-- Field access on a JSON value, as JS property access: `none` when the value
is not an object or lacks the field. With `buildObj`'s duplicate handling,
the first match is the JS property value. -/
def Json.getField : Json → String → Option Json
  | .obj fields, k => fields.lookup k
  | _, _ => none

/-- The string carried by a JSON string value. -/
def Json.asStr : Json → Option String
  | .str s => some s
  | _ => none

/-- The elements carried by a JSON array value. -/
def Json.asArr : Json → Option (List Json)
  | .arr l => some l
  | _ => none

/-- The fields carried by a JSON object value. -/
def Json.asObjFields : Json → Option (List (String × Json))
  | .obj l => some l
  | _ => none

/-- A number-or-null JSON value as the model's nullable number (`null`, and
any non-numeric value, collapse to `none`). -/
def Json.asNullableNum : Json → Option JNum
  | .num n => some n
  | _ => none

/-- JSON image of a nullable number. -/
def jsonOfNullableNum : Option JNum → Json
  | none => .null
  | some n => .num n

/-- JSON image of an `SdmxValue` (an absent `id` field is omitted, as
`JSON.stringify` omits `undefined` properties). -/
def SdmxValue.toJson (v : SdmxValue) : Json :=
  .obj (match v.id with
    | none => []
    | some s => [("id", .str s)])

/-- JSON image of an `SdmxDimension`. -/
def SdmxDimension.toJson (d : SdmxDimension) : Json :=
  .obj ([("id", .str d.id)] ++
    match d.values with
    | none => []
    | some vs => [("values", .arr (vs.map SdmxValue.toJson))])

/-- JSON image of an `SdmxSeries`. -/
def SdmxSeries.toJson (s : SdmxSeries) : Json :=
  .obj [("attributes", .arr (s.attributes.map jsonOfNullableNum)),
        ("observations", .obj (s.observations.map fun kv =>
          (kv.1, .arr (kv.2.map jsonOfNullableNum))))]

/-- JSON image of an `SdmxDataSet`. -/
def SdmxDataSet.toJson (ds : SdmxDataSet) : Json :=
  .obj (match ds.series with
    | none => []
    | some l => [("series", .obj (l.map fun kv => (kv.1, kv.2.toJson)))])

/-- JSON image of the `dimensions` object. -/
def SdmxDimensions.toJson (d : SdmxDimensions) : Json :=
  .obj [("series", .arr (d.series.map SdmxDimension.toJson)),
        ("observation", .arr (d.observation.map SdmxDimension.toJson))]

/-- JSON image of an `SdmxStructure`. -/
def SdmxStructure.toJson (st : SdmxStructure) : Json :=
  .obj (match st.dimensions with
    | none => []
    | some d => [("dimensions", d.toJson)])

/-- JSON image of a whole document. -/
def SdmxJsonResponse.toJson (r : SdmxJsonResponse) : Json :=
  .obj ((match r.dataSets with
      | none => []
      | some l => [("dataSets", .arr (l.map SdmxDataSet.toJson))]) ++
    (match r.«structure» with
      | none => []
      | some st => [("structure", st.toJson)]))

/-- Serialization of a document: its JSON image printed as JSON text (the
claim's `serialize`, modelling `JSON.stringify` on a document value). -/
def serializeSdmx (r : SdmxJsonResponse) : String :=
  r.toJson.print

/-- Reads an `SdmxValue` out of raw JSON (models the dynamic reads performed
after the source's unchecked `as SdmxJsonResponse` cast: a missing or
non-string `id` behaves as `undefined`). -/
def decodeSdmxValue (j : Json) : SdmxValue :=
  ⟨(j.getField "id").bind Json.asStr⟩

/-- Reads an `SdmxDimension` out of raw JSON (a missing `id` behaves as the
never-matched empty identifier; non-array `values` as absent). -/
def decodeSdmxDimension (j : Json) : SdmxDimension :=
  ⟨((j.getField "id").bind Json.asStr).getD "",
   ((j.getField "values").bind Json.asArr).map (·.map decodeSdmxValue)⟩

/-- Reads an `SdmxSeries` out of raw JSON. -/
def decodeSdmxSeries (j : Json) : SdmxSeries :=
  ⟨(((j.getField "attributes").bind Json.asArr).getD []).map Json.asNullableNum,
   (((j.getField "observations").bind Json.asObjFields).getD []).map fun kv =>
     (kv.1, ((kv.2.asArr).getD []).map Json.asNullableNum)⟩

/-- Reads an `SdmxDataSet` out of raw JSON. -/
def decodeSdmxDataSet (j : Json) : SdmxDataSet :=
  ⟨((j.getField "series").bind Json.asObjFields).map
    (·.map fun kv => (kv.1, decodeSdmxSeries kv.2))⟩

/-- Reads the `dimensions` object out of raw JSON. -/
def decodeSdmxDimensions (j : Json) : SdmxDimensions :=
  ⟨(((j.getField "series").bind Json.asArr).getD []).map decodeSdmxDimension,
   (((j.getField "observation").bind Json.asArr).getD []).map decodeSdmxDimension⟩

/-- Reads an `SdmxStructure` out of raw JSON. -/
def decodeSdmxStructure (j : Json) : SdmxStructure :=
  ⟨((j.getField "dimensions").bind Json.asObjFields).map fun fields =>
    decodeSdmxDimensions (.obj fields)⟩

/-- Reads a whole document out of raw JSON; models the unchecked
`JSON.parse(raw) as SdmxJsonResponse` cast together with all the dynamic
property reads the client performs on the result. -/
def decodeSdmx (j : Json) : SdmxJsonResponse :=
  ⟨((j.getField "dataSets").bind Json.asArr).map (·.map decodeSdmxDataSet),
   ((j.getField "structure").bind Json.asObjFields).map fun fields =>
     decodeSdmxStructure (.obj fields)⟩

/-- Embeds `parseSdmxJson` (sdmx-json-parser.ts lines 81-87): `JSON.parse` on
the raw text, wrapping a syntax failure in `EcbParseError`; the successful
value is used as a document without validation. -/
def parseSdmxJson (raw : String) : Except EcbError SdmxJsonResponse :=
  match jsonParse raw with
  | some j => .ok (decodeSdmx j)
  | none => .error (.parseError "Failed to parse ECB JSON response.")


/-- A small single-series SDMX-JSON body, as it would arrive from the HTTP
transport: one USD/EUR series with one observation of 1.03 on 2025-01-15. -/
def DEMO_SINGLE_JSON : String :=
  "\x7b\"dataSets\":[\x7b\"series\":\x7b\"0:0:0:0:0\":\x7b\"attributes\":[],\"observations\":\x7b\"0\":[1.03]\x7d\x7d\x7d\x7d],\"structure\":\x7b\"dimensions\":\x7b\"series\":[\x7b\"id\":\"FREQ\",\"values\":[\x7b\"id\":\"D\"\x7d]\x7d,\x7b\"id\":\"CURRENCY\",\"values\":[\x7b\"id\":\"USD\"\x7d]\x7d,\x7b\"id\":\"CURRENCY_DENOM\",\"values\":[\x7b\"id\":\"EUR\"\x7d]\x7d,\x7b\"id\":\"EXR_TYPE\",\"values\":[\x7b\"id\":\"SP00\"\x7d]\x7d,\x7b\"id\":\"EXR_SUFFIX\",\"values\":[\x7b\"id\":\"A\"\x7d]\x7d],\"observation\":[\x7b\"id\":\"TIME_PERIOD\",\"values\":[\x7b\"id\":\"2025-01-15\"\x7d]\x7d]\x7d\x7d\x7d"

/-- Embeds `ExchangeRateQuery` from `src/types/index.ts` (optional fields as
`Option`). -/
structure ExchangeRateQuery where
  currencies : List String
  startDate : String
  endDate : Option String
  frequency : Option String
  baseCurrency : Option String
  deriving Repr, DecidableEq

/-- Embeds `ExchangeRateResult`: `rates` is a JS `Map` from date to rate,
modelled as an insertion-ordered association list. -/
structure ExchangeRateResult where
  base : String
  rates : List (String × JNum)
  currency : String
  deriving Repr, DecidableEq

/-- Embeds `ExchangeRatesResult`: `rates` maps each date to a currency→rate
record. -/
structure ExchangeRatesResult where
  base : String
  rates : List (String × List (String × JNum))
  currencies : List String
  deriving Repr, DecidableEq

/-- Embeds `ConversionResult`; the converted `amount` is an exact rational
(the source computes with JS floats — see `jsRound`). -/
structure ConversionResult where
  amount : Rat
  rate : JNum
  date : String
  currency : String
  deriving Repr, DecidableEq

/-- Embeds `ISO_DATE_REGEX = /^\d{4}-\d{2}-\d{2}$/` from validation.ts. -/
def isIsoDate (s : String) : Bool :=
  match s.data with
  | [y1, y2, y3, y4, '-', m1, m2, '-', d1, d2] =>
    [y1, y2, y3, y4, m1, m2, d1, d2].all Char.isDigit
  | _ => false

/-- Embeds `CURRENCY_REGEX = /^[A-Z]{3}$/` from validation.ts. -/
def isCurrencyCode (s : String) : Bool :=
  match s.data with
  | [a, b, c] => [a, b, c].all fun ch => 'A' ≤ ch && ch ≤ 'Z'
  | _ => false

/-- Models the JS string relation `a < b`: lexicographic comparison by code
unit (all strings in play are ASCII, where code units and code points agree). -/
def jsStringLt : List Char → List Char → Bool
  | [], [] => false
  | [], _ :: _ => true
  | _ :: _, [] => false
  | c1 :: r1, c2 :: r2 =>
    if c1.toNat < c2.toNat then true
    else if c2.toNat < c1.toNat then false
    else jsStringLt r1 r2

/-- The final `baseCurrency` check of `validateQuery` (validation.ts lines
42-46), split out because it runs whether or not `endDate` is present. -/
def validateBase (query : ExchangeRateQuery) : Except EcbError Unit :=
  match query.baseCurrency with
  | some b =>
    if !isCurrencyCode b then
      .error (.validationError s!"Invalid baseCurrency \"{b}\". Must be a 3-letter ISO 4217 code.")
    else .ok ()
  | none => .ok ()

/-- Embeds `validateQuery` from `src/utils/validation.ts`, with the source's
check order: currency count, each currency code (first offender reported),
`startDate` format, `endDate` format and ordering when present, then
`baseCurrency` format when present. String comparison `startDate > endDate`
is JS lexicographic string ordering. -/
def validateQuery (query : ExchangeRateQuery) : Except EcbError Unit :=
  if query.currencies.length = 0 then
    .error (.validationError "At least one currency must be specified.")
  else
    match query.currencies.find? (fun c => !isCurrencyCode c) with
    | some currency =>
      .error (.validationError
        s!"Invalid currency code \"{currency}\". Must be a 3-letter ISO 4217 code.")
    | none =>
      if !isIsoDate query.startDate then
        let startDate := query.startDate
        .error (.validationError s!"Invalid startDate \"{startDate}\". Expected format: YYYY-MM-DD.")
      else
        match query.endDate with
        | some endDate =>
          if !isIsoDate endDate then
            .error (.validationError s!"Invalid endDate \"{endDate}\". Expected format: YYYY-MM-DD.")
          else if jsStringLt endDate.data query.startDate.data then
            let startDate := query.startDate
            .error (.validationError
              s!"startDate \"{startDate}\" must not be after endDate \"{endDate}\".")
          else validateBase query
        | none => validateBase query

/-- Embeds `DEFAULT_BASE_CURRENCY` from `src/client.ts`. -/
def DEFAULT_BASE_CURRENCY : String := "EUR"

/-- Embeds `EcbClient`'s constructor resolution of the configured base
currency: `config.baseCurrency ?? DEFAULT_BASE_CURRENCY`. -/
def clientBaseCurrency (configBaseCurrency : Option String) : String :=
  configBaseCurrency.getD DEFAULT_BASE_CURRENCY

/-- Embeds `EcbClient.resolveQuery` (client.ts lines 167-172): fills in the
client's base currency when the query has none. -/
def resolveQuery (baseCurrency : String) (query : ExchangeRateQuery) : ExchangeRateQuery :=
  match query.baseCurrency with
  | some _ => query
  | none => { query with baseCurrency := some baseCurrency }

/-- Embeds `EcbClient.fetchAndParse` (client.ts lines 175-186). The HTTP
transport is an external collaborator; its outcome — the raw body text, or a
thrown network/API error — is the `fetched` parameter. The parsed
observations are returned unless empty, in which case `EcbNoDataError` is
thrown with the query's currencies and dates. -/
def fetchAndParse (query : ExchangeRateQuery) (fetched : Except EcbError String) :
    Except EcbError (List ExchangeRateObservation) :=
  match fetched with
  | .error e => .error e
  | .ok raw =>
    match parseSdmxJson raw with
    | .error e => .error e
    | .ok json =>
      match parseJsonResponse json with
      | .error e => .error e
      | .ok observations =>
        if observations.length = 0 then
          .error (.noDataError query.currencies query.startDate query.endDate)
        else .ok observations

/-- Embeds `EcbClient.getSingleCurrencyRates` (client.ts lines 188-207):
resolve and validate the query, fetch and parse, build the date→rate map in
observation order, and derive `base` from the first observation, falling back
to the resolved query's base currency, then the client's. `currency` is the
source's unchecked `resolved.currencies[0] as string` cast, modelled with an
empty-string default that validation makes unreachable. -/
def getSingleCurrencyRates (baseCurrency : String) (query : ExchangeRateQuery)
    (fetched : Except EcbError String) : Except EcbError ExchangeRateResult :=
  let resolved := resolveQuery baseCurrency query
  match validateQuery resolved with
  | .error e => .error e
  | .ok _ =>
    match fetchAndParse resolved fetched with
    | .error e => .error e
    | .ok observations =>
      let rates := observations.foldl (fun m obs => mapSet m obs.date obs.rate) []
      let base :=
        match observations.head? with
        | some obs => obs.baseCurrency
        | none => resolved.baseCurrency.getD baseCurrency
      .ok { base, rates, currency := resolved.currencies.head?.getD "" }

/-- Embeds `EcbClient.getRate` (client.ts lines 76-83): a single-currency
single-date query. -/
def getRate (baseCurrency currency date : String) (fetched : Except EcbError String) :
    Except EcbError ExchangeRateResult :=
  getSingleCurrencyRates baseCurrency
    { currencies := [currency], startDate := date, endDate := some date,
      frequency := none, baseCurrency := none } fetched

/-- Embeds `EcbClient.transformToMultiCurrencyResult` (client.ts lines
209-232): group rates as date → currency → rate in observation order, derive
`base` as in the single-currency case. -/
def transformToMultiCurrencyResult (baseCurrency : String)
    (observations : List ExchangeRateObservation) (query : ExchangeRateQuery) :
    ExchangeRatesResult :=
  let rates := observations.foldl
    (fun m obs => mapSet m obs.date (mapSet ((m.lookup obs.date).getD []) obs.currency obs.rate))
    []
  let base :=
    match observations.head? with
    | some obs => obs.baseCurrency
    | none => query.baseCurrency.getD baseCurrency
  { base, rates, currencies := query.currencies }

/-- Embeds `EcbClient.getRates` (client.ts lines 110-116). -/
def getRates (baseCurrency : String) (query : ExchangeRateQuery)
    (fetched : Except EcbError String) : Except EcbError ExchangeRatesResult :=
  let resolved := resolveQuery baseCurrency query
  match validateQuery resolved with
  | .error e => .error e
  | .ok _ =>
    match fetchAndParse resolved fetched with
    | .error e => .error e
    | .ok observations =>
      .ok (transformToMultiCurrencyResult baseCurrency observations resolved)

/-- Models JS `Math.round`: round half toward positive infinity. -/
def jsRound (x : Rat) : Int :=
  ⌊x + 1 / 2⌋

/-- Embeds `EcbClient.convert` (client.ts lines 140-160): `getRate`, catching
exactly `EcbNoDataError` as `null`; on success the first entry of the rates
map supplies the rate and its actual date, and the amount is
`Math.round(amount * rate * 100) / 100`. Reading the first entry of an empty
map would destructure `undefined` — a raw `TypeError`, modelled by
`EcbError.typeError`. -/
def convert (baseCurrency : String) (amount : Rat) (currency date : String)
    (fetched : Except EcbError String) : Except EcbError (Option ConversionResult) :=
  match getRate baseCurrency currency date fetched with
  | .error e =>
    match e with
    | .noDataError .. => .ok none
    | _ => .error e
  | .ok result =>
    match result.rates.head? with
    | some (actualDate, rate) =>
      .ok (some
        { amount := (jsRound (amount * rate.toRat * 100) : Rat) / 100,
          rate, date := actualDate, currency })
    | none => .error (.typeError "undefined is not iterable")

/-- The decoded contribution of all data sets, given resolved structure. -/
def decodeDataSets (r : ResolvedStructure) (dataSets : List SdmxDataSet) :
    List ExchangeRateObservation :=
  dataSets.flatMap fun dataSet =>
    match dataSet.series with
    | none => []
    | some series =>
      series.flatMap
        (decodeSeries r.currencyDimIndex r.denomDimIndex
          r.currencyValues r.denomValues r.timeValues)

/-- The structural defects of a document, as the spec enumerates them:
`structure.dimensions` absent; `CURRENCY` or `CURRENCY_DENOM` absent from the
series dimensions; `TIME_PERIOD` absent from the observation dimensions; or
one of the three value vocabularies absent at its resolved position. -/
def structuralDefect (struct? : Option SdmxStructure) : Prop :=
  struct?.bind (·.dimensions) = none ∨
  ∃ dims, struct?.bind (·.dimensions) = some dims ∧
    ((∀ d ∈ dims.series, d.id ≠ "CURRENCY") ∨
     (∀ d ∈ dims.series, d.id ≠ "CURRENCY_DENOM") ∨
     (∀ d ∈ dims.observation, d.id ≠ "TIME_PERIOD") ∨
     (∃ i, dims.series.findIdx? (fun d => d.id == "CURRENCY") = some i ∧
       dims.series[i]?.bind (·.values) = none) ∨
     (∃ i, dims.series.findIdx? (fun d => d.id == "CURRENCY_DENOM") = some i ∧
       dims.series[i]?.bind (·.values) = none) ∨
     (∃ i, dims.observation.findIdx? (fun d => d.id == "TIME_PERIOD") = some i ∧
       dims.observation[i]?.bind (·.values) = none))

/-- A document whose structural checks pass but whose data sets are filled
with malformed entries: a data set without `series`, series keys with
non-numeric segments, too few or too many segments, out-of-range indices,
vocabulary values without an id or with an empty id, non-numeric and
out-of-range observation keys, empty observation tuples and `null` rates —
alongside one fully valid observation. -/
def LENIENT_RESPONSE : SdmxJsonResponse where
  dataSets := some [
    { series := none },
    { series := some [
        ("abc:def", { attributes := [], observations := [("0", [some ⟨1, 0⟩])] }),
        ("0", { attributes := [], observations := [("0", [some ⟨2, 0⟩])] }),
        ("0:5:0:0:0", { attributes := [], observations := [("0", [some ⟨3, 0⟩])] }),
        ("0:2:0:0:0", { attributes := [], observations := [("0", [some ⟨4, 0⟩])] }),
        ("0:3:0:0:0", { attributes := [], observations := [("0", [some ⟨5, 0⟩])] }),
        ("0:0:0:0:0:9:9",
         { attributes := [],
           observations := [
             ("xyz", [some ⟨6, 0⟩]),
             ("7", [some ⟨7, 0⟩]),
             ("5", []),
             ("1", [none, some ⟨8, 0⟩]),
             ("0", [some ⟨103, -2⟩])] })] }]
  «structure» := some
    { dimensions := some
        { series := [
            { id := "FREQ", values := some [{ id := some "D" }] },
            { id := "CURRENCY", values := some [{ id := some "USD" }, { id := some "GBP" },
                { id := none }, { id := some "" }] },
            { id := "CURRENCY_DENOM", values := some [{ id := some "EUR" }] },
            { id := "EXR_TYPE", values := some [{ id := some "SP00" }] },
            { id := "EXR_SUFFIX", values := some [{ id := some "A" }] }],
          observation := [
            { id := "TIME_PERIOD",
              values := some [{ id := some "2025-01-15" }, { id := some "2025-01-16" }] }] } }

/-- The vocabulary identifier selected by a series key's segment at a resolved
dimension position: split the key on `":"`, coerce the segment at the
position, index the vocabulary, take the value's id (the spec's
cross-referencing rule for series dimensions). -/
def seriesIdAt (dimIndex : Nat) (vocab : List SdmxValue) (key : String) : Option String :=
  (((jsSplitOnColon key).map jsArrayIndex)[dimIndex]?.join.bind fun i => vocab[i]?).bind (·.id)

/-- The date identifier selected by an observation key in the `TIME_PERIOD`
vocabulary (the spec's cross-referencing rule for the observation dimension). -/
def dateIdAt (vocab : List SdmxValue) (obsKey : String) : Option String :=
  ((jsArrayIndex obsKey).bind fun i => vocab[i]?).bind (·.id)

/-- A well-shaped document (the multi-currency fixture's structure, with five
series dimensions) whose single series key `"0:0:0"` has three segments —
fewer than the five series dimensions — yet still covers the resolved
`CURRENCY` (position 1) and `CURRENCY_DENOM` (position 2) positions. -/
def SHORT_KEY_RESPONSE : SdmxJsonResponse where
  dataSets := some [
    { series := some [
        ("0:0:0", { attributes := [], observations := [("0", [some ⟨103, -2⟩])] })] }]
  «structure» := MULTI_CURRENCY_RESPONSE.«structure»

/-- The spec's cross-referenced observation list: exactly one observation per
(series, observation) pair of the document, each field read off the
vocabularies by the key at the resolved position. -/
def observationsSpec (r : ResolvedStructure) (dss : List SdmxDataSet) :
    List ExchangeRateObservation :=
  dss.flatMap fun ds =>
    (ds.series.getD []).flatMap fun e =>
      e.2.observations.map fun o =>
        ⟨(dateIdAt r.timeValues o.1).getD "",
         (seriesIdAt r.currencyDimIndex r.currencyValues e.1).getD "",
         (seriesIdAt r.denomDimIndex r.denomValues e.1).getD "",
         (o.2[0]?.join).getD ⟨0, 0⟩⟩

/-- The claim's validity condition on document entries: every series key
selects, at the resolved positions, in-vocabulary values with non-empty ids,
and every observation has an in-vocabulary date and a non-null rate. -/
def validEntries (r : ResolvedStructure) (dss : List SdmxDataSet) : Prop :=
  ∀ ds ∈ dss, ∀ e ∈ ds.series.getD [],
    (seriesIdAt r.currencyDimIndex r.currencyValues e.1).getD "" ≠ "" ∧
    (seriesIdAt r.denomDimIndex r.denomValues e.1).getD "" ≠ "" ∧
    ∀ o ∈ e.2.observations,
      (dateIdAt r.timeValues o.1).getD "" ≠ "" ∧ (o.2[0]?.join).isSome = true

/-- Delimiter condition: the text after a printed value is empty or starts
with a separator/closer, never with a character that could extend a number. -/
def delimOk (l : List Char) : Prop :=
  ∀ c ∈ l.head?, c = ',' ∨ c = ']' ∨ c = '\x7d'

/-- First-match-at-`i` characterization shared by both dimension lookups. -/
def firstMatchAt (dims : List SdmxDimension) (target : String) (i : Nat) : Prop :=
  (∃ d, dims[i]? = some d ∧ d.id = target) ∧
    ∀ j, j < i → ∀ d, dims[j]? = some d → d.id ≠ target

theorem findIdx?_some_iff_firstMatch (dims : List SdmxDimension) (target : String) (i : Nat) :
    dims.findIdx? (fun d => d.id == target) = some i ↔ firstMatchAt dims target i := by
  rw [List.findIdx?_eq_some_iff_getElem]
  constructor
  · rintro ⟨hlt, hp, hprev⟩
    refine ⟨⟨dims[i], by simp, by simpa using hp⟩, ?_⟩
    intro j hj d hd hid
    have hjlt : j < dims.length := Nat.lt_trans hj hlt
    have hde : dims[j] = d := by
      have hg := List.getElem?_eq_getElem hjlt
      rw [hg] at hd
      exact Option.some.inj hd
    exact hprev j hj (by simp [hde, hid])
  · rintro ⟨⟨d, hd, hid⟩, hprev⟩
    have hlt : i < dims.length := by
      by_contra hge
      rw [List.getElem?_eq_none (by omega)] at hd
      exact Option.noConfusion hd
    refine ⟨hlt, ?_, ?_⟩
    · have hde : dims[i] = d := by
        have hg := List.getElem?_eq_getElem hlt
        rw [hg] at hd
        exact Option.some.inj hd
      simp [hde, hid]
    · intro j hj
      have hjlt : j < dims.length := Nat.lt_trans hj hlt
      have hne := hprev j hj dims[j] (List.getElem?_eq_getElem hjlt)
      simpa using hne

/-- C8: the series-dimension lookup and the observation-dimension lookup are
one and the same algorithm. For every dimension list and target identifier:
they succeed with the same index; success at `i` means `i` is the position of
the first dimension whose identifier equals the target; and each fails
exactly when no dimension carries the identifier, with an `EcbParseError`
naming the missing identifier and the searched list (series respectively
observation). -/
theorem dimension_lookups_equivalent (dims : List SdmxDimension) (target : String) :
    (∀ i, findDimensionIndex dims target = .ok i ↔
      findObservationDimensionIndex dims target = .ok i) ∧
    (∀ i, findDimensionIndex dims target = .ok i ↔ firstMatchAt dims target i) ∧
    (findDimensionIndex dims target =
        .error (.parseError s!"Missing series dimension \"{target}\" in SDMX-JSON structure.") ↔
      ∀ d ∈ dims, d.id ≠ target) ∧
    (findObservationDimensionIndex dims target =
        .error (.parseError
          s!"Missing observation dimension \"{target}\" in SDMX-JSON structure.") ↔
      ∀ d ∈ dims, d.id ≠ target) := by
  refine ⟨?_, ?_, ?_, ?_⟩
  · intro i
    cases h : dims.findIdx? (fun d => d.id == target) <;>
      simp [findDimensionIndex, findObservationDimensionIndex, h]
  · intro i
    rw [← findIdx?_some_iff_firstMatch]
    cases h : dims.findIdx? (fun d => d.id == target) <;>
      simp [findDimensionIndex, h, eq_comm]
  · cases h : dims.findIdx? (fun d => d.id == target) with
    | none =>
      simp only [findDimensionIndex, h]
      rw [List.findIdx?_eq_none_iff] at h
      constructor
      · intro _ d hd
        have hne := h d hd
        simpa using hne
      · intro _
        trivial
    | some j =>
      simp only [findDimensionIndex, h]
      constructor
      · intro hcontr
        exact absurd hcontr (by simp)
      · intro hall
        have hp := List.findIdx?_of_eq_some h
        revert hp
        cases hj : dims[j]? with
        | none => simp
        | some d =>
          have hmem : d ∈ dims := List.getElem?_mem hj
          intro hp
          have hide : d.id = target := by simpa using hp
          exact absurd hide (hall d hmem)
  · cases h : dims.findIdx? (fun d => d.id == target) with
    | none =>
      simp only [findObservationDimensionIndex, h]
      rw [List.findIdx?_eq_none_iff] at h
      constructor
      · intro _ d hd
        have hne := h d hd
        simpa using hne
      · intro _
        trivial
    | some j =>
      simp only [findObservationDimensionIndex, h]
      constructor
      · intro hcontr
        exact absurd hcontr (by simp)
      · intro hall
        have hp := List.findIdx?_of_eq_some h
        revert hp
        cases hj : dims[j]? with
        | none => simp
        | some d =>
          have hmem : d ∈ dims := List.getElem?_mem hj
          intro hp
          have hide : d.id = target := by simpa using hp
          exact absurd hide (hall d hmem)

/-- Closed instance of `dimension_lookups_equivalent` on the multi-currency
fixture's series dimensions: `CURRENCY` resolves to position `1` in both
lookups, and a missing identifier fails with the series-list error. -/
theorem dimension_lookups_equivalent_witness :
    findObservationDimensionIndex
        ((MULTI_CURRENCY_RESPONSE.«structure».bind (·.dimensions)).elim [] (·.series))
        "CURRENCY" = .ok 1 ∧
      findDimensionIndex
        ((MULTI_CURRENCY_RESPONSE.«structure».bind (·.dimensions)).elim [] (·.series))
        "FOO" =
        .error (.parseError "Missing series dimension \"FOO\" in SDMX-JSON structure.") := by
  constructor
  · exact (dimension_lookups_equivalent _ "CURRENCY").1 1 |>.mp (by decide)
  · exact (dimension_lookups_equivalent _ "FOO").2.2.1.mpr (by decide)

theorem parseJsonResponse_no_dataSets (data : SdmxJsonResponse)
    (h : data.dataSets = none ∨ data.dataSets = some []) : parseJsonResponse data = .ok [] := by
  rcases h with h | h <;> simp [parseJsonResponse, h]

theorem parseJsonResponse_nonempty (data : SdmxJsonResponse) (dss : List SdmxDataSet)
    (h1 : data.dataSets = some dss) (h2 : dss ≠ []) :
    parseJsonResponse data = (resolveStructure data.«structure»).map (decodeDataSets · dss) := by
  have hlen : dss.length ≠ 0 := by simpa using (List.length_eq_zero.not.mpr h2)
  cases hres : resolveStructure data.«structure» <;>
    simp [parseJsonResponse, h1, hlen, hres, Except.map, decodeDataSets]

theorem findDimensionIndex_ok_iff (dims : List SdmxDimension) (id : String) (i : Nat) :
    findDimensionIndex dims id = .ok i ↔ dims.findIdx? (fun d => d.id == id) = some i := by
  cases h : dims.findIdx? (fun d => d.id == id) <;> simp [findDimensionIndex, h, eq_comm]

theorem findObservationDimensionIndex_ok_iff (dims : List SdmxDimension) (id : String) (i : Nat) :
    findObservationDimensionIndex dims id = .ok i ↔
      dims.findIdx? (fun d => d.id == id) = some i := by
  cases h : dims.findIdx? (fun d => d.id == id) <;>
    simp [findObservationDimensionIndex, h, eq_comm]

theorem findDimensionIndex_error_shape (dims : List SdmxDimension) (id : String) (e : EcbError)
    (h : findDimensionIndex dims id = .error e) :
    e = .parseError s!"Missing series dimension \"{id}\" in SDMX-JSON structure." := by
  revert h
  cases hf : dims.findIdx? (fun d => d.id == id) <;> simp [findDimensionIndex, hf, eq_comm]

theorem findObservationDimensionIndex_error_shape (dims : List SdmxDimension) (id : String)
    (e : EcbError) (h : findObservationDimensionIndex dims id = .error e) :
    e = .parseError s!"Missing observation dimension \"{id}\" in SDMX-JSON structure." := by
  revert h
  cases hf : dims.findIdx? (fun d => d.id == id) <;>
    simp [findObservationDimensionIndex, hf, eq_comm]

theorem resolveStructure_ok_implies (struct? : Option SdmxStructure) (r : ResolvedStructure)
    (h : resolveStructure struct? = .ok r) :
    ∃ dims, struct?.bind (·.dimensions) = some dims ∧
      dims.series.findIdx? (fun d => d.id == "CURRENCY") = some r.currencyDimIndex ∧
      dims.series.findIdx? (fun d => d.id == "CURRENCY_DENOM") = some r.denomDimIndex ∧
      dims.observation.findIdx? (fun d => d.id == "TIME_PERIOD") = some r.timeDimIndex ∧
      dims.series[r.currencyDimIndex]?.bind (·.values) = some r.currencyValues ∧
      dims.series[r.denomDimIndex]?.bind (·.values) = some r.denomValues ∧
      dims.observation[r.timeDimIndex]?.bind (·.values) = some r.timeValues := by
  unfold resolveStructure at h
  repeat' split at h
  all_goals simp_all [findDimensionIndex_ok_iff, findObservationDimensionIndex_ok_iff]
  all_goals (obtain ⟨rfl⟩ := h; simp_all)

theorem resolveStructure_error_shape (struct? : Option SdmxStructure) (e : EcbError)
    (h : resolveStructure struct? = .error e) : ∃ msg, e = .parseError msg := by
  unfold resolveStructure at h
  repeat' split at h
  all_goals simp_all
  all_goals try subst h
  all_goals
    first
    | exact ⟨_, rfl⟩
    | (rename_i heq
       first
       | exact ⟨_, findDimensionIndex_error_shape _ _ _ heq⟩
       | exact ⟨_, findObservationDimensionIndex_error_shape _ _ _ heq⟩)

theorem exists_of_findIdx?_some {α : Type} {l : List α} {p : α → Bool} {i : Nat}
    (h : l.findIdx? p = some i) : ∃ x ∈ l, p x := by
  have hp := List.findIdx?_of_eq_some h
  revert hp
  cases hj : l[i]? with
  | none => simp
  | some d => exact fun hp => ⟨d, List.getElem?_mem hj, hp⟩

theorem resolveStructure_defect_not_ok (struct? : Option SdmxStructure)
    (hdef : structuralDefect struct?) (r : ResolvedStructure) :
    resolveStructure struct? ≠ .ok r := by
  intro hok
  obtain ⟨dims, hdims, hc, hd, ht, hcv, hdv, htv⟩ := resolveStructure_ok_implies _ _ hok
  rcases hdef with hnone | ⟨dims2, hdims2, hcase⟩
  · rw [hdims] at hnone
    exact Option.noConfusion hnone
  · rw [hdims] at hdims2
    obtain rfl : dims = dims2 := Option.some.inj hdims2
    rcases hcase with hcase | hcase | hcase | ⟨i, hi, hvoc⟩ | ⟨i, hi, hvoc⟩ | ⟨i, hi, hvoc⟩
    · obtain ⟨d, hmem, hp⟩ := exists_of_findIdx?_some hc
      exact absurd (by simpa using hp) (hcase d hmem)
    · obtain ⟨d, hmem, hp⟩ := exists_of_findIdx?_some hd
      exact absurd (by simpa using hp) (hcase d hmem)
    · obtain ⟨d, hmem, hp⟩ := exists_of_findIdx?_some ht
      exact absurd (by simpa using hp) (hcase d hmem)
    · rw [hc] at hi
      obtain rfl : i = r.currencyDimIndex := (Option.some.inj hi).symm
      rw [hcv] at hvoc
      exact Option.noConfusion hvoc
    · rw [hd] at hi
      obtain rfl : i = r.denomDimIndex := (Option.some.inj hi).symm
      rw [hdv] at hvoc
      exact Option.noConfusion hvoc
    · rw [ht] at hi
      obtain rfl : i = r.timeDimIndex := (Option.some.inj hi).symm
      rw [htv] at hvoc
      exact Option.noConfusion hvoc

/-- C2: `parseJsonResponse` returns `[]` without error whenever `dataSets` is
absent or empty, regardless of the structure; and for every document with
non-empty `dataSets` exhibiting a structural defect (missing
`structure.dimensions`, missing `CURRENCY`/`CURRENCY_DENOM` series dimension,
missing `TIME_PERIOD` observation dimension, or a missing value vocabulary)
it raises `EcbParseError` — before any series is decoded: the result is the
same whatever the contents of `dataSets`. -/
theorem parse_structural_error_handling :
    (∀ data : SdmxJsonResponse, data.dataSets = none ∨ data.dataSets = some [] →
      parseJsonResponse data = .ok []) ∧
    (∀ (data : SdmxJsonResponse) (dss : List SdmxDataSet),
      data.dataSets = some dss → dss ≠ [] → structuralDefect data.«structure» →
      (∃ msg, parseJsonResponse data = .error (.parseError msg)) ∧
      (∀ dss2, dss2 ≠ [] →
        parseJsonResponse { data with dataSets := some dss2 } = parseJsonResponse data)) := by
  constructor
  · exact parseJsonResponse_no_dataSets
  · intro data dss h1 h2 hdef
    cases hres : resolveStructure data.«structure» with
    | ok r => exact absurd hres (resolveStructure_defect_not_ok _ hdef r)
    | error e =>
      obtain ⟨msg, rfl⟩ := resolveStructure_error_shape _ _ hres
      constructor
      · refine ⟨msg, ?_⟩
        rw [parseJsonResponse_nonempty data dss h1 h2, hres]
        rfl
      · intro dss2 hne2
        rw [parseJsonResponse_nonempty { data with dataSets := some dss2 } dss2 rfl hne2,
          parseJsonResponse_nonempty data dss h1 h2]
        have hsame : ({ data with dataSets := some dss2 } : SdmxJsonResponse).«structure» =
            data.«structure» := rfl
        rw [hsame, hres]
        rfl

/-- Closed instance of `parse_structural_error_handling`: an empty `dataSets`
yields `[]` even with a malformed structure, and a non-empty document whose
structure lacks its dimension lists raises `EcbParseError` however the data
sets are filled. -/
theorem parse_structural_error_handling_witness :
    parseJsonResponse ⟨some [], none⟩ = .ok [] ∧
      (∃ msg, parseJsonResponse
        ⟨some [⟨none⟩], some ⟨some ⟨[], []⟩⟩⟩ = .error (.parseError msg)) := by
  constructor
  · exact parse_structural_error_handling.1 _ (.inr rfl)
  · exact (parse_structural_error_handling.2 ⟨some [⟨none⟩], some ⟨some ⟨[], []⟩⟩⟩ [⟨none⟩] rfl
      (by simp) (.inr ⟨⟨[], []⟩, rfl, .inl (by simp)⟩)).1

/-- C9: once the structural checks succeed the decoding is total — for any
well-typed `dataSets` content, `parseJsonResponse` returns the decoded list
and never an error; every malformed series or observation entry is filtered
out, as the `LENIENT_RESPONSE` evaluation shows (only its one valid
observation survives). -/
theorem decode_total_after_structural_checks :
    (∀ (data : SdmxJsonResponse) (dss : List SdmxDataSet) (r : ResolvedStructure),
      data.dataSets = some dss → dss ≠ [] → resolveStructure data.«structure» = .ok r →
      parseJsonResponse data = .ok (decodeDataSets r dss)) ∧
    parseJsonResponse LENIENT_RESPONSE = .ok [⟨"2025-01-15", "USD", "EUR", ⟨103, -2⟩⟩] := by
  constructor
  · intro data dss r h1 h2 hres
    rw [parseJsonResponse_nonempty data dss h1 h2, hres]
    rfl
  · decide

/-- Closed instance of `decode_total_after_structural_checks` on the lenient
fixture: the structural checks succeed and decoding returns without error. -/
theorem decode_total_after_structural_checks_witness :
    parseJsonResponse LENIENT_RESPONSE =
      .ok (decodeDataSets
        ⟨1, 2, 0,
         [{ id := some "USD" }, { id := some "GBP" }, { id := none }, { id := some "" }],
         [{ id := some "EUR" }],
         [{ id := some "2025-01-15" }, { id := some "2025-01-16" }]⟩
        (LENIENT_RESPONSE.dataSets.getD [])) := by
  exact decode_total_after_structural_checks.1 LENIENT_RESPONSE
    (LENIENT_RESPONSE.dataSets.getD []) _ (by decide) (by decide) (by decide)


theorem decodeObservation_emit (tv : List SdmxValue) (c b k : String) (tup : List (Option JNum))
    (d : String) (r : JNum) (hd : dateIdAt tv k = some d) (hne : d ≠ "")
    (hr : tup[0]?.join = some r) :
    decodeObservation tv c b (k, tup) = some ⟨d, c, b, r⟩ := by
  unfold dateIdAt at hd
  have hr2 : (tup[0]?.bind fun a => a) = some r := hr
  have hemp : d.isEmpty = false := by
    rw [Bool.eq_false_iff]
    intro habs
    exact hne ((String.isEmpty_iff d).mp habs)
  simp [decodeObservation, hd, hr2, hemp]

theorem decodeObservation_skip (tv : List SdmxValue) (c b k : String) (tup : List (Option JNum))
    (h : dateIdAt tv k = none ∨ dateIdAt tv k = some "" ∨ tup[0]?.join = none) :
    decodeObservation tv c b (k, tup) = none := by
  unfold dateIdAt at h
  rcases h with h | h | h
  · cases hr : (tup[0]?.bind fun a => a) <;> simp [decodeObservation, h, hr]
  · cases hr : (tup[0]?.bind fun a => a) <;> simp [decodeObservation, h, hr, String.isEmpty_iff]
  · have h2 : (tup[0]?.bind fun a => a) = none := h
    cases hd : ((jsArrayIndex k).bind fun i => tv[i]?).bind (·.id) <;>
      simp [decodeObservation, h2, hd]

theorem decodeSeries_resolved (ci di : Nat) (cv dv tv : List SdmxValue) (k : String)
    (sd : SdmxSeries) (c b : String)
    (hc : seriesIdAt ci cv k = some c) (hcne : c ≠ "")
    (hb : seriesIdAt di dv k = some b) (hbne : b ≠ "") :
    decodeSeries ci di cv dv tv (k, sd) =
      sd.observations.filterMap (decodeObservation tv c b) := by
  unfold seriesIdAt at hc hb
  have hcemp : c.isEmpty = false := by
    rw [Bool.eq_false_iff]
    intro habs
    exact hcne ((String.isEmpty_iff c).mp habs)
  have hbemp : b.isEmpty = false := by
    rw [Bool.eq_false_iff]
    intro habs
    exact hbne ((String.isEmpty_iff b).mp habs)
  cases hci : ((jsSplitOnColon k).map jsArrayIndex)[ci]? with
  | none => rw [hci] at hc; simp at hc
  | some idxc =>
    rw [hci] at hc
    cases hdi : ((jsSplitOnColon k).map jsArrayIndex)[di]? with
    | none => rw [hdi] at hb; simp at hb
    | some idxd =>
      rw [hdi] at hb
      have hc2 : (idxc.bind fun i => cv[i]?).bind (·.id) = some c := by simpa using hc
      have hb2 : (idxd.bind fun i => dv[i]?).bind (·.id) = some b := by simpa using hb
      simp [decodeSeries, hci, hdi, hc2, hb2, hcemp, hbemp]

theorem decodeSeries_skip (ci di : Nat) (cv dv tv : List SdmxValue) (k : String)
    (sd : SdmxSeries)
    (h : ((jsSplitOnColon k).map jsArrayIndex)[ci]? = none ∨
      ((jsSplitOnColon k).map jsArrayIndex)[di]? = none ∨
      seriesIdAt ci cv k = none ∨ seriesIdAt di dv k = none) :
    decodeSeries ci di cv dv tv (k, sd) = [] := by
  unfold seriesIdAt at h
  cases hci : ((jsSplitOnColon k).map jsArrayIndex)[ci]? with
  | none => simp [decodeSeries, hci]
  | some idxc =>
    cases hdi : ((jsSplitOnColon k).map jsArrayIndex)[di]? with
    | none => simp [decodeSeries, hci, hdi]
    | some idxd =>
      rcases h with h | h | h | h
      · rw [hci] at h; exact Option.noConfusion h
      · rw [hdi] at h; exact Option.noConfusion h
      · rw [hci] at h
        have hc2 : (idxc.bind fun i => cv[i]?).bind (·.id) = none := by simpa using h
        cases hb2 : (idxd.bind fun i => dv[i]?).bind (·.id) <;>
          simp [decodeSeries, hci, hdi, hc2, hb2]
      · rw [hdi] at h
        have hb2 : (idxd.bind fun i => dv[i]?).bind (·.id) = none := by simpa using h
        cases hc2 : (idxc.bind fun i => cv[i]?).bind (·.id) <;>
          simp [decodeSeries, hci, hdi, hc2, hb2]


/-- C3 counterexample: a series whose key's segment count (3) differs from
the series-dimension count (5) is NOT skipped — `parseJsonResponse` decodes
its observation. -/
theorem key_segment_count_mismatch_not_skipped :
    (jsSplitOnColon "0:0:0").length = 3 ∧
      (SHORT_KEY_RESPONSE.«structure».bind (·.dimensions)).map (·.series.length) = some 5 ∧
      parseJsonResponse SHORT_KEY_RESPONSE =
        .ok [⟨"2025-01-15", "USD", "EUR", ⟨103, -2⟩⟩] := by
  refine ⟨by decide, by decide, by decide⟩

/-- C3 amended: a segment-count mismatch alone does not skip a series; a
series is skipped (without a crash) when its key is too short to cover the
resolved `CURRENCY` or `CURRENCY_DENOM` position. -/
theorem key_too_short_skipped (ci di : Nat) (cv dv tv : List SdmxValue) (k : String)
    (sd : SdmxSeries)
    (h : (jsSplitOnColon k).length ≤ ci ∨ (jsSplitOnColon k).length ≤ di) :
    decodeSeries ci di cv dv tv (k, sd) = [] := by
  apply decodeSeries_skip
  rcases h with h | h
  · exact .inl (List.getElem?_eq_none (by simpa using h))
  · exact .inr (.inl (List.getElem?_eq_none (by simpa using h)))

/-- Closed instance of `key_too_short_skipped`: the one-segment key `"0"`
cannot cover position 1, so the series decodes to nothing. -/
theorem key_too_short_skipped_witness :
    decodeSeries 1 2 [{ id := some "USD" }] [{ id := some "EUR" }]
      [{ id := some "2025-01-15" }]
      ("0", { attributes := [], observations := [("0", [some ⟨103, -2⟩])] }) = [] := by
  exact key_too_short_skipped 1 2 _ _ _ "0" _ (.inl (by decide))

/-- C4: a series whose key has no segment at the resolved `CURRENCY` or
`CURRENCY_DENOM` position, or whose segment there selects no vocabulary
identifier (non-numeric segment, out-of-range index, or a value without an
id), is skipped silently and in full: it contributes no observations, and
removing it from the document leaves `parseJsonResponse`'s result unchanged
— no error is raised. -/
theorem invalid_series_skipped_silently :
    (∀ (ci di : Nat) (cv dv tv : List SdmxValue) (k : String) (sd : SdmxSeries),
      (((jsSplitOnColon k).map jsArrayIndex)[ci]? = none ∨
        ((jsSplitOnColon k).map jsArrayIndex)[di]? = none ∨
        seriesIdAt ci cv k = none ∨ seriesIdAt di dv k = none) →
      decodeSeries ci di cv dv tv (k, sd) = []) ∧
    (∀ (data : SdmxJsonResponse) (dp dn : List SdmxDataSet) (ds : SdmxDataSet)
      (sp sn : List (String × SdmxSeries)) (entry : String × SdmxSeries)
      (r : ResolvedStructure),
      data.dataSets = some (dp ++ ds :: dn) →
      ds.series = some (sp ++ entry :: sn) →
      resolveStructure data.«structure» = .ok r →
      decodeSeries r.currencyDimIndex r.denomDimIndex
        r.currencyValues r.denomValues r.timeValues entry = [] →
      parseJsonResponse data =
        parseJsonResponse
          ⟨some (dp ++ { ds with series := some (sp ++ sn) } :: dn), data.«structure»⟩) := by
  constructor
  · intro ci di cv dv tv k sd h
    exact decodeSeries_skip ci di cv dv tv k sd h
  · intro data dp dn ds sp sn entry r h1 h2 hres hskip
    rw [parseJsonResponse_nonempty data (dp ++ ds :: dn) h1 (by simp),
      parseJsonResponse_nonempty ⟨some (dp ++ { ds with series := some (sp ++ sn) } :: dn),
        data.«structure»⟩ (dp ++ { ds with series := some (sp ++ sn) } :: dn) rfl (by simp)]
    have hstruct : (⟨some (dp ++ { ds with series := some (sp ++ sn) } :: dn),
        data.«structure»⟩ : SdmxJsonResponse).«structure» = data.«structure» := rfl
    rw [hstruct, hres]
    simp only [Except.map]
    congr 1
    simp only [decodeDataSets, List.flatMap_append, List.flatMap_cons, h2]
    congr 1
    congr 1
    simp [List.flatMap_append, hskip]

/-- Closed instance of `invalid_series_skipped_silently`: an out-of-range
vocabulary index leaves the series undecoded. -/
theorem invalid_series_skipped_silently_witness :
    decodeSeries 1 2 [{ id := some "USD" }] [{ id := some "EUR" }]
      [{ id := some "2025-01-15" }]
      ("0:7:0:0:0", { attributes := [], observations := [("0", [some ⟨103, -2⟩])] }) = [] := by
  exact invalid_series_skipped_silently.1 1 2 _ _ _ "0:7:0:0:0" _
    (.inr (.inr (.inl (by decide))))

/-- C5: within a resolved series, each observation entry is decoded
independently: an entry whose date lookup yields nothing (or an empty id) or
whose tuple has no leading non-null rate is skipped as `none`; otherwise the
observation `⟨date, currency, baseCurrency, rate⟩` is emitted; the series
decodes through `filterMap`, so a skipped entry leaves its siblings'
contributions untouched. -/
theorem observation_skip_and_emit :
    (∀ (tv : List SdmxValue) (c b k : String) (tup : List (Option JNum)),
      (dateIdAt tv k = none ∨ dateIdAt tv k = some "" ∨ tup[0]?.join = none) →
      decodeObservation tv c b (k, tup) = none) ∧
    (∀ (tv : List SdmxValue) (c b k : String) (tup : List (Option JNum)) (d : String) (r : JNum),
      dateIdAt tv k = some d → d ≠ "" → tup[0]?.join = some r →
      decodeObservation tv c b (k, tup) = some ⟨d, c, b, r⟩) ∧
    (∀ (ci di : Nat) (cv dv tv : List SdmxValue) (k : String) (sd : SdmxSeries) (c b : String),
      seriesIdAt ci cv k = some c → c ≠ "" → seriesIdAt di dv k = some b → b ≠ "" →
      decodeSeries ci di cv dv tv (k, sd) =
        sd.observations.filterMap (decodeObservation tv c b)) ∧
    (∀ (tv : List SdmxValue) (c b : String) (pre post : List (String × List (Option JNum)))
      (bad : String × List (Option JNum)),
      decodeObservation tv c b bad = none →
      (pre ++ bad :: post).filterMap (decodeObservation tv c b) =
        pre.filterMap (decodeObservation tv c b) ++
          post.filterMap (decodeObservation tv c b)) := by
  refine ⟨decodeObservation_skip, decodeObservation_emit, decodeSeries_resolved, ?_⟩
  intro tv c b pre post bad hbad
  simp [List.filterMap_append, List.filterMap_cons, hbad]

/-- Closed instance of `observation_skip_and_emit` on one series: a null-rate
entry and an out-of-range date entry are skipped while their two valid
siblings are emitted. -/
theorem observation_skip_and_emit_witness :
    decodeSeries 1 2 [{ id := some "USD" }, { id := some "GBP" }] [{ id := some "EUR" }]
      [{ id := some "2025-01-15" }, { id := some "2025-01-16" }]
      ("0:0:0:0:0",
       { attributes := [],
         observations := [
           ("0", [some ⟨103, -2⟩]), ("7", [some ⟨1, 0⟩]), ("1", [none]),
           ("1", [some ⟨10303, -4⟩])] }) =
      [⟨"2025-01-15", "USD", "EUR", ⟨103, -2⟩⟩, ⟨"2025-01-16", "USD", "EUR", ⟨10303, -4⟩⟩] := by
  rw [observation_skip_and_emit.2.2.1 1 2 _ _ _ "0:0:0:0:0" _ "USD" "EUR"
    (by decide) (by decide) (by decide) (by decide)]
  decide


theorem getD_ne_empty {o : Option String} (h : o.getD "" ≠ "") : ∃ c, o = some c ∧ c ≠ "" := by
  cases o with
  | none => simp at h
  | some c => exact ⟨c, rfl, by simpa using h⟩

/-- C1: on every document whose structural checks resolve and whose entries
are valid, `parseJsonResponse` returns exactly one observation per (series,
observation) pair — the cross-referenced `observationsSpec` list, of length
the total observation-entry count — and on the two-currency two-date fixture
it returns the four expected observations (USD/2025-01-15 → 1.03,
USD/2025-01-16 → 1.0303, GBP/2025-01-15 → 0.8442, GBP/2025-01-16 → 0.8451). -/
theorem decode_cross_references :
    (∀ (data : SdmxJsonResponse) (dss : List SdmxDataSet) (r : ResolvedStructure),
      data.dataSets = some dss → dss ≠ [] →
      resolveStructure data.«structure» = .ok r → validEntries r dss →
      parseJsonResponse data = .ok (observationsSpec r dss) ∧
      (observationsSpec r dss).length =
        (dss.map fun ds =>
          ((ds.series.getD []).map fun e => e.2.observations.length).sum).sum) ∧
    parseJsonResponse MULTI_CURRENCY_RESPONSE = .ok [
      ⟨"2025-01-15", "USD", "EUR", ⟨103, -2⟩⟩,
      ⟨"2025-01-16", "USD", "EUR", ⟨10303, -4⟩⟩,
      ⟨"2025-01-15", "GBP", "EUR", ⟨8442, -4⟩⟩,
      ⟨"2025-01-16", "GBP", "EUR", ⟨8451, -4⟩⟩] := by
  constructor
  · intro data dss r h1 h2 hres hvalid
    constructor
    · rw [parseJsonResponse_nonempty data dss h1 h2, hres]
      simp only [Except.map]
      congr 1
      unfold decodeDataSets observationsSpec
      apply List.flatMap_congr
      intro ds hds
      cases hser : ds.series with
      | none => simp
      | some entries =>
        simp only [Option.getD_some]
        apply List.flatMap_congr
        intro e he
        have hvat := hvalid ds hds e (by rw [hser]; simpa using he)
        obtain ⟨hcne, hbne, hobs⟩ := hvat
        obtain ⟨c, hc, hcne2⟩ := getD_ne_empty hcne
        obtain ⟨b, hb, hbne2⟩ := getD_ne_empty hbne
        obtain ⟨k, sd⟩ := e
        rw [decodeSeries_resolved r.currencyDimIndex r.denomDimIndex
          r.currencyValues r.denomValues r.timeValues k sd c b hc hcne2 hb hbne2]
        rw [List.filterMap_eq_map_iff_forall_eq_some.mpr ?_]
        intro o ho
        obtain ⟨hdne, hrsome⟩ := hobs o ho
        obtain ⟨d, hdx, hdne2⟩ := getD_ne_empty hdne
        obtain ⟨rt, hrt⟩ := Option.isSome_iff_exists.mp hrsome
        obtain ⟨ok, tup⟩ := o
        rw [decodeObservation_emit r.timeValues c b ok tup d rt hdx hdne2 hrt]
        have hrt2 : (tup[0]?.bind fun a => a) = some rt := hrt
        simp [hdx, hc, hb, hrt2]
    · unfold observationsSpec
      rw [List.length_flatMap]
      congr 1
      apply List.map_congr_left
      intro ds _
      simp only [Function.comp_apply]
      rw [List.length_flatMap]
      congr 1
      apply List.map_congr_left
      intro e _
      simp [List.length_map]
  · decide

/-- Closed instance of `decode_cross_references` on the single-currency
fixture: its two observations are exactly the cross-referenced list. -/
theorem decode_cross_references_witness :
    parseJsonResponse SINGLE_CURRENCY_RESPONSE =
      .ok (observationsSpec
        ⟨1, 2, 0, [{ id := some "USD" }], [{ id := some "EUR" }],
         [{ id := some "2025-01-15" }, { id := some "2025-01-16" }]⟩
        (SINGLE_CURRENCY_RESPONSE.dataSets.getD [])) := by
  exact (decode_cross_references.1 SINGLE_CURRENCY_RESPONSE
    (SINGLE_CURRENCY_RESPONSE.dataSets.getD []) _ (by decide) (by decide) (by decide)
    (by unfold validEntries; decide)).1


theorem fetchAndParse_ok_ne_nil (q : ExchangeRateQuery) (fetched : Except EcbError String)
    (observations : List ExchangeRateObservation)
    (h : fetchAndParse q fetched = .ok observations) : observations ≠ [] := by
  unfold fetchAndParse at h
  repeat' split at h
  all_goals simp_all

/-- C7: in both result shapes, `base` is the first decoded observation's
`baseCurrency` when an observation exists, else the query's base currency
when specified, else the client's configured default; the resolved query's
base currency is the query's when given, else the client's; and the library
default configuration is `"EUR"`. On the successful single-currency path an
observation always exists (empty lists raise `EcbNoDataError` earlier), so
`base` is the first observation's `baseCurrency`. -/
theorem base_currency_selection :
    (∀ (cfgBase : String) (observations : List ExchangeRateObservation)
      (query : ExchangeRateQuery),
      (transformToMultiCurrencyResult cfgBase observations query).base =
        match observations.head? with
        | some obs => obs.baseCurrency
        | none => query.baseCurrency.getD cfgBase) ∧
    (∀ (cfgBase : String) (query : ExchangeRateQuery) (fetched : Except EcbError String)
      (result : ExchangeRateResult),
      getSingleCurrencyRates cfgBase query fetched = .ok result →
      ∃ observations obs,
        fetchAndParse (resolveQuery cfgBase query) fetched = .ok observations ∧
        observations.head? = some obs ∧ result.base = obs.baseCurrency) ∧
    (∀ (cfgBase : String) (query : ExchangeRateQuery),
      (resolveQuery cfgBase query).baseCurrency = some (query.baseCurrency.getD cfgBase)) ∧
    clientBaseCurrency none = "EUR" := by
  refine ⟨?_, ?_, ?_, rfl⟩
  · intro cfgBase observations query
    cases observations <;> simp [transformToMultiCurrencyResult]
  · intro cfgBase query fetched result h
    simp only [getSingleCurrencyRates] at h
    split at h
    · exact absurd h (by simp)
    · split at h
      · exact absurd h (by simp)
      · rename_i observations hfetch
        have hne := fetchAndParse_ok_ne_nil _ _ _ hfetch
        cases hobs : observations with
        | nil => exact absurd hobs hne
        | cons o rest =>
          refine ⟨observations, o, hfetch, by rw [hobs]; rfl, ?_⟩
          have hrb : result.base =
              match observations.head? with
              | some obs => obs.baseCurrency
              | none => (resolveQuery cfgBase query).baseCurrency.getD cfgBase := by
            simp only [Except.ok.injEq] at h
            rw [← h]
          rw [hrb, hobs]
          rfl
  · intro cfgBase query
    cases hq : query.baseCurrency <;> simp [resolveQuery, hq]

/-- Closed instance of `base_currency_selection`: with no observations the
multi-currency base falls back to the query's base currency, and with an
observation present its `baseCurrency` wins over both fallbacks. -/
theorem base_currency_selection_witness :
    (transformToMultiCurrencyResult "EUR" []
      ⟨["USD"], "2025-01-15", none, none, some "USD"⟩).base = "USD" ∧
    (transformToMultiCurrencyResult "CHF" [⟨"2025-01-15", "USD", "EUR", ⟨103, -2⟩⟩]
      ⟨["USD"], "2025-01-15", none, none, some "USD"⟩).base = "EUR" := by
  constructor
  · rw [base_currency_selection.1]
    decide
  · rw [base_currency_selection.1]
    decide


theorem mapSet_ne_nil {α : Type} (m : List (String × α)) (k : String) (v : α) :
    mapSet m k v ≠ [] := by
  cases m with
  | nil => simp [mapSet]
  | cons kv rest =>
    obtain ⟨k0, v0⟩ := kv
    by_cases hk : k0 = k <;> simp [mapSet, hk]

theorem foldl_mapSet_ne_nil (observations : List ExchangeRateObservation)
    (m : List (String × JNum)) (h : m ≠ [] ∨ observations ≠ []) :
    observations.foldl (fun acc obs => mapSet acc obs.date obs.rate) m ≠ [] := by
  induction observations generalizing m with
  | nil =>
    rcases h with h | h
    · simpa using h
    · exact absurd rfl h
  | cons o rest ih =>
    simp only [List.foldl_cons]
    exact ih (mapSet m o.date o.rate) (.inl (mapSet_ne_nil m o.date o.rate))

theorem parseSdmxJson_error_shape (raw : String) (e : EcbError)
    (h : parseSdmxJson raw = .error e) :
    e = .parseError "Failed to parse ECB JSON response." := by
  unfold parseSdmxJson at h
  split at h
  · exact absurd h (by simp)
  · simp only [Except.error.injEq] at h
    exact h.symm

theorem parseJsonResponse_error_shape (data : SdmxJsonResponse) (e : EcbError)
    (h : parseJsonResponse data = .error e) : ∃ msg, e = .parseError msg := by
  cases hds : data.dataSets with
  | none => rw [parseJsonResponse_no_dataSets data (.inl hds)] at h; exact absurd h (by simp)
  | some dss =>
    cases hdss : dss with
    | nil =>
      rw [hdss] at hds
      rw [parseJsonResponse_no_dataSets data (.inr hds)] at h
      exact absurd h (by simp)
    | cons d rest =>
      rw [parseJsonResponse_nonempty data dss hds (by rw [hdss]; simp)] at h
      cases hres : resolveStructure data.«structure» with
      | ok r => rw [hres] at h; exact absurd h (by simp [Except.map])
      | error e2 =>
        rw [hres] at h
        simp only [Except.map, Except.error.injEq] at h
        subst h
        exact resolveStructure_error_shape _ _ hres

/-- C10: `convert` returns `null` exactly when the rate lookup fails with
`EcbNoDataError`; every other failure propagates unchanged; on success the
rate and date come from the first entry of the returned rates map (not
necessarily the requested date) and the amount is
`Math.round(amount * rate * 100) / 100`. The no-data condition on a fetched
body arises exactly when the decoded observation list is empty. -/
theorem convert_semantics :
    (∀ (cfgBase : String) (amount : Rat) (currency date : String)
      (fetched : Except EcbError String),
      convert cfgBase amount currency date fetched = .ok none ↔
        ∃ cs sd ed, getRate cfgBase currency date fetched = .error (.noDataError cs sd ed)) ∧
    (∀ (cfgBase : String) (amount : Rat) (currency date : String)
      (fetched : Except EcbError String) (e : EcbError),
      getRate cfgBase currency date fetched = .error e →
      (∀ cs sd ed, e ≠ .noDataError cs sd ed) →
      convert cfgBase amount currency date fetched = .error e) ∧
    (∀ (cfgBase : String) (amount : Rat) (currency date : String)
      (fetched : Except EcbError String) (result : ExchangeRateResult),
      getRate cfgBase currency date fetched = .ok result →
      ∃ d r rest, result.rates = (d, r) :: rest ∧
        convert cfgBase amount currency date fetched =
          .ok (some ⟨(jsRound (amount * r.toRat * 100) : Rat) / 100, r, d, currency⟩)) ∧
    (∀ (q : ExchangeRateQuery) (raw : String),
      (∃ cs sd ed, fetchAndParse q (.ok raw) = .error (.noDataError cs sd ed)) ↔
        ∃ doc, parseSdmxJson raw = .ok doc ∧ parseJsonResponse doc = .ok []) := by
  refine ⟨?_, ?_, ?_, ?_⟩
  · intro cfgBase amount currency date fetched
    unfold convert
    cases hg : getRate cfgBase currency date fetched with
    | error e =>
      cases e <;> simp
    | ok result =>
      cases hh : result.rates.head? with
      | none => simp [hh]
      | some kv => obtain ⟨d, r⟩ := kv; simp [hh]
  · intro cfgBase amount currency date fetched e hg hne
    unfold convert
    rw [hg]
    cases e with
    | noDataError cs sd ed => exact absurd rfl (hne cs sd ed)
    | _ => rfl
  · intro cfgBase amount currency date fetched result hg
    have hrne : result.rates ≠ [] := by
      unfold getRate at hg
      simp only [getSingleCurrencyRates] at hg
      split at hg
      · exact absurd hg (by simp)
      · split at hg
        · exact absurd hg (by simp)
        · rename_i observations hfetch
          have hone := fetchAndParse_ok_ne_nil _ _ _ hfetch
          simp only [Except.ok.injEq] at hg
          rw [← hg]
          exact foldl_mapSet_ne_nil observations [] (.inr hone)
    cases hr : result.rates with
    | nil => exact absurd hr hrne
    | cons kv rest =>
      obtain ⟨d, r⟩ := kv
      refine ⟨d, r, rest, rfl, ?_⟩
      unfold convert
      rw [hg]
      simp [hr]
  · intro q raw
    constructor
    · rintro ⟨cs, sd, ed, h⟩
      unfold fetchAndParse at h
      repeat' split at h
      all_goals simp_all
      · rename_i heq
        exact EcbError.noConfusion (parseSdmxJson_error_shape _ _ heq)
      · rename_i heq
        obtain ⟨msg, hmsg⟩ := parseJsonResponse_error_shape _ _ heq
        exact EcbError.noConfusion hmsg
    · rintro ⟨doc, hp, hpr⟩
      refine ⟨q.currencies, q.startDate, q.endDate, ?_⟩
      simp [fetchAndParse, hp, hpr]

set_option maxRecDepth 8000 in
/-- Closed instance of `convert_semantics`: an empty-`dataSets` body makes
`convert` return `null`; a one-observation body converts 100 at rate 1.03 on
the returned date. -/
theorem convert_semantics_witness :
    convert "EUR" 100 "USD" "2025-01-15"
      (.ok "\x7b\"dataSets\":[]\x7d") = .ok none ∧
    convert "EUR" 100 "USD" "2025-01-15" (.ok DEMO_SINGLE_JSON) =
      .ok (some ⟨103, ⟨103, -2⟩, "2025-01-15", "USD"⟩) := by
  constructor
  · exact (convert_semantics.1 "EUR" 100 "USD" "2025-01-15" _).mpr
      ⟨["USD"], "2025-01-15", some "2025-01-15", by decide⟩
  · obtain ⟨d, r, rest, hrates, hconv⟩ :=
      convert_semantics.2.2.1 "EUR" 100 "USD" "2025-01-15" (.ok DEMO_SINGLE_JSON)
        ⟨"EUR", [("2025-01-15", ⟨103, -2⟩)], "USD"⟩ (by decide)
    simp only [List.cons.injEq, Prod.mk.injEq] at hrates
    obtain ⟨⟨hd, hr⟩, hrest⟩ := hrates
    rw [← hd, ← hr] at hconv
    rw [hconv]
    have htr : JNum.toRat ⟨103, -2⟩ = 103 / 100 := by
      unfold JNum.toRat
      norm_num
      rw [show Int.toNat 2 = 2 from rfl]
      norm_num
    rw [htr]
    have harg : (100 : Rat) * (103 / 100) * 100 = 10300 := by norm_num
    unfold jsRound
    rw [harg]
    rw [show ⌊(10300 : Rat) + 1 / 2⌋ = 10300 by
      rw [Int.floor_eq_iff]
      norm_num]
    norm_num


theorem natChars_ne_nil (n : Nat) : natChars n ≠ [] := by
  rw [natChars]
  split <;> simp

theorem natChars_head_pos (n : Nat) (h : 0 < n) :
    ∃ c cs, natChars n = c :: cs ∧ c.isDigit = true ∧ c ≠ '0' := by
  induction n using Nat.strong_induction_on with
  | _ n ih =>
    rw [natChars]
    split
    · rename_i hlt
      refine ⟨Char.ofNat (48 + n), [], rfl, ?_, ?_⟩ <;> (interval_cases n <;> decide)
    · rename_i hge
      obtain ⟨c, cs, hc, hdig, hne⟩ :=
        ih (n / 10) (Nat.div_lt_self (by omega) (by omega)) (by omega)
      exact ⟨c, cs ++ [Char.ofNat (48 + n % 10)], by rw [hc]; rfl, hdig, hne⟩

theorem parseDigitsAux_natChars (n : Nat) :
    ∀ (rest : List Char) (acc cnt : Nat),
    parseDigitsAux (natChars n ++ rest) acc cnt =
      parseDigitsAux rest (acc * 10 ^ (natChars n).length + n) (cnt + (natChars n).length) := by
  induction n using Nat.strong_induction_on with
  | _ n ih =>
    intro rest acc cnt
    rw [natChars]
    split
    · rename_i hlt
      have hdig : (Char.ofNat (48 + n)).isDigit = true := by interval_cases n <;> decide
      have hval : (Char.ofNat (48 + n)).toNat - 48 = n := by interval_cases n <;> decide
      simp only [List.singleton_append, List.length_singleton, parseDigitsAux, hdig, if_true,
        hval, pow_one, List.nil_append]
      rfl
    · rename_i hge
      have hq := ih (n / 10) (Nat.div_lt_self (by omega) (by omega))
      have hm : n % 10 < 10 := Nat.mod_lt _ (by omega)
      have hdig : (Char.ofNat (48 + n % 10)).isDigit = true := by
        interval_cases h : (n % 10) <;> decide
      have hval : (Char.ofNat (48 + n % 10)).toNat - 48 = n % 10 := by
        interval_cases h : (n % 10) <;> decide
      rw [List.append_assoc, hq, List.singleton_append, parseDigitsAux, if_pos hdig, hval,
        List.length_append, List.length_singleton]
      have hA : (acc * 10 ^ (natChars (n / 10)).length + n / 10) * 10 + n % 10
          = acc * 10 ^ ((natChars (n / 10)).length + 1) + n := by
        rw [pow_succ]
        have hdm : n / 10 * 10 + n % 10 = n := by omega
        calc (acc * 10 ^ (natChars (n / 10)).length + n / 10) * 10 + n % 10
            = acc * (10 ^ (natChars (n / 10)).length * 10) + (n / 10 * 10 + n % 10) := by ring
          _ = acc * (10 ^ (natChars (n / 10)).length * 10) + n := by rw [hdm]
      rw [hA]
      congr 1

theorem parseDigitsAux_stop (rest : List Char) (acc cnt : Nat)
    (h : ∀ c ∈ rest.head?, c.isDigit = false) :
    parseDigitsAux rest acc cnt = (acc, cnt, rest) := by
  cases rest with
  | nil => rfl
  | cons c r =>
    have hc : c.isDigit = false := h c rfl
    simp [parseDigitsAux, hc]


theorem delimOk_head_not_digit {l : List Char} (h : delimOk l) :
    ∀ c ∈ l.head?, c.isDigit = false := by
  intro c hc
  rcases h c hc with rfl | rfl | rfl <;> decide

theorem natChars_head_digit (n : Nat) :
    ∃ c cs, natChars n = c :: cs ∧ c.isDigit = true := by
  by_cases h : n = 0
  · subst h
    exact ⟨Char.ofNat (48 + 0), [], by rw [natChars]; rfl, by decide⟩
  · obtain ⟨c, cs, hc, hdig, _⟩ := natChars_head_pos n (by omega)
    exact ⟨c, cs, hc, hdig⟩

theorem parseIntPart_natChars (n : Nat) (rest : List Char)
    (hrest : ∀ c ∈ rest.head?, c.isDigit = false) :
    parseIntPart (natChars n ++ rest) = some (n, rest) := by
  by_cases hn : n = 0
  · subst hn
    have h0 : natChars 0 = ['0'] := by rw [natChars]; simp
    rw [h0]
    cases rest with
    | nil => rfl
    | cons c r =>
      have hc : c.isDigit = false := hrest c rfl
      simp [parseIntPart, hc]
  · obtain ⟨c, cs, hc, hdig, hne⟩ := natChars_head_pos n (by omega)
    have hrun := parseDigitsAux_natChars n rest 0 0
    rw [parseDigitsAux_stop rest _ _ hrest, hc, List.cons_append] at hrun
    rw [hc, List.cons_append, parseIntPart.eq_def]
    simp only [if_neg hne, if_pos hdig, hrun, Nat.zero_mul, Nat.zero_add]

theorem parseFracPart_skip (l : List Char) (h : ∀ c ∈ l.head?, c ≠ '.') :
    parseFracPart l = some (0, 0, l) := by
  cases l with
  | nil => rfl
  | cons c r =>
    have hc : c ≠ '.' := h c rfl
    simp [parseFracPart, hc]

theorem parseExpPart_skip (l : List Char) (h : ∀ c ∈ l.head?, c ≠ 'e' ∧ c ≠ 'E') :
    parseExpPart l = some (0, l) := by
  cases l with
  | nil => rfl
  | cons c r =>
    obtain ⟨he, hE⟩ := h c rfl
    simp [parseExpPart, he, hE]

theorem parseExpTail_intChars (e : Int) (rest : List Char)
    (hrest : ∀ c ∈ rest.head?, c.isDigit = false) :
    parseExpTail (intChars e ++ rest) = some (e, rest) := by
  by_cases he : e < 0
  · have hneg : intChars e = '-' :: natChars (-e).toNat := by
      unfold intChars
      rw [if_pos he]
    rw [hneg, List.cons_append]
    have hrun := parseDigitsAux_natChars (-e).toNat rest 0 0
    rw [parseDigitsAux_stop rest _ _ hrest] at hrun
    have h1 : ¬(('-' : Char) = '+') := by decide
    have hlen : ¬((natChars (-e).toNat).length = 0) := by
      simp [List.length_eq_zero, natChars_ne_nil]
    simp only [parseExpTail, if_neg h1, eq_self_iff_true, if_true, hrun, Nat.zero_mul,
      Nat.zero_add]
    rw [if_neg hlen]
    have hval : (-1 : Int) * ((-e).toNat : Int) = e := by omega
    rw [hval]
  · push_neg at he
    have hpos : intChars e = natChars e.toNat := by
      unfold intChars
      rw [if_neg (by omega)]
    rw [hpos]
    obtain ⟨c, cs, hc, hdig⟩ := natChars_head_digit e.toNat
    have hplus : ¬(c = '+') := fun hh => by rw [hh] at hdig; exact absurd hdig (by decide)
    have hminus : ¬(c = '-') := fun hh => by rw [hh] at hdig; exact absurd hdig (by decide)
    have hrun := parseDigitsAux_natChars e.toNat rest 0 0
    rw [parseDigitsAux_stop rest _ _ hrest, hc, List.cons_append] at hrun
    rw [hc, List.cons_append]
    simp only [parseExpTail, if_neg hplus, if_neg hminus, hrun, Nat.zero_mul, Nat.zero_add,
      one_mul]
    rw [if_neg (by simp)]
    rw [Int.toNat_of_nonneg he]

theorem delimOk_head_facts {l : List Char} (h : delimOk l) :
    ∀ c ∈ l.head?, c.isDigit = false ∧ c ≠ '.' ∧ c ≠ 'e' ∧ c ≠ 'E' := by
  intro c hc
  rcases h c hc with rfl | rfl | rfl <;> refine ⟨by decide, by decide, by decide, by decide⟩

theorem parseNumber_intChars (m : Int) (tail : List Char)
    (htail : ∀ c ∈ tail.head?, c.isDigit = false ∧ c ≠ '.') :
    parseNumber (intChars m ++ tail) =
      match parseExpPart tail with
      | none => none
      | some (ev, r3) => some (⟨m, ev⟩, r3) := by
  have hint : ∀ c ∈ tail.head?, c.isDigit = false := fun c hc => (htail c hc).1
  have hdot : ∀ c ∈ tail.head?, c ≠ '.' := fun c hc => (htail c hc).2
  by_cases hm : m < 0
  · have hneg : intChars m = '-' :: natChars (-m).toNat := by
      unfold intChars
      rw [if_pos hm]
    rw [hneg, List.cons_append]
    simp only [parseNumber, eq_self_iff_true, if_true,
      parseIntPart_natChars _ _ hint, parseFracPart_skip _ hdot]
    cases hexp : parseExpPart tail with
    | none => rfl
    | some p =>
      obtain ⟨ev, r3⟩ := p
      simp only [pow_zero, mul_one, Nat.cast_zero, add_zero]
      rw [show -((((-m).toNat : Nat) : Int)) = m by omega, sub_zero]
  · have hpos : intChars m = natChars m.toNat := by
      unfold intChars
      rw [if_neg hm]
    rw [hpos]
    obtain ⟨c, cs, hc, hdig⟩ := natChars_head_digit m.toNat
    have hminus : ¬(c = '-') := fun hh => by rw [hh] at hdig; exact absurd hdig (by decide)
    have hip := parseIntPart_natChars m.toNat tail hint
    rw [hc, List.cons_append] at hip
    rw [hc, List.cons_append]
    simp only [parseNumber, if_neg hminus, hip, parseFracPart_skip _ hdot]
    cases hexp : parseExpPart tail with
    | none => rfl
    | some p =>
      obtain ⟨ev, r3⟩ := p
      simp only [pow_zero, mul_one, Nat.cast_zero, add_zero]
      rw [show (((m.toNat : Nat)) : Int) = m by omega, sub_zero]
      simp

theorem parseNumber_printNum (n : JNum) (rest : List Char) (hrest : delimOk rest) :
    parseNumber (printNum n ++ rest) = some (n, rest) := by
  have hfacts := delimOk_head_facts hrest
  by_cases he : n.e = 0
  · have hp : printNum n = intChars n.m := by
      unfold printNum
      rw [if_pos he]
    rw [hp, parseNumber_intChars n.m rest (fun c hc => ⟨(hfacts c hc).1, (hfacts c hc).2.1⟩)]
    rw [parseExpPart_skip rest (fun c hc => ⟨(hfacts c hc).2.2.1, (hfacts c hc).2.2.2⟩)]
    have : n = ⟨n.m, 0⟩ := by cases n; simp_all
    rw [this]
  · have hp : printNum n = intChars n.m ++ 'e' :: intChars n.e := by
      unfold printNum
      rw [if_neg he]
    have htail : ∀ c ∈ ('e' :: (intChars n.e ++ rest) : List Char).head?,
        c.isDigit = false ∧ c ≠ '.' := by
      intro c hc
      have h' : 'e' = c := by simpa using hc
      subst h'
      exact ⟨by decide, by decide⟩
    rw [hp, List.append_assoc, List.cons_append, parseNumber_intChars n.m _ htail]
    have hddig : ∀ c ∈ rest.head?, c.isDigit = false := fun c hc => (hfacts c hc).1
    have hexp : parseExpPart ('e' :: (intChars n.e ++ rest)) = some (n.e, rest) := by
      show (if ('e' : Char) = 'e' ∨ ('e' : Char) = 'E' then parseExpTail (intChars n.e ++ rest)
        else some (0, 'e' :: (intChars n.e ++ rest))) = some (n.e, rest)
      rw [if_pos (Or.inl rfl), parseExpTail_intChars n.e rest hddig]
    rw [hexp]

set_option maxHeartbeats 2000000 in
theorem parseStringBody_other (c : Char) (rest : List Char)
    (hq : c ≠ '"') (hb : c ≠ '\\') :
    parseStringBody (c :: rest) =
      if c.toNat < 32 then none
      else (parseStringBody rest).map fun (s, r) => (c :: s, r) := by
  rw [parseStringBody.eq_def]
  split <;> simp_all

theorem hexVal_hexDigitChar (k : Nat) (h : k < 16) : hexVal (hexDigitChar k) = some k := by
  interval_cases k <;> decide

set_option maxHeartbeats 2000000 in
theorem parseStringBody_escape (c : Char) (tail : List Char) :
    parseStringBody (escapeChar c ++ tail) =
      (parseStringBody tail).map fun (s, r) => (c :: s, r) := by
  rw [escapeChar]
  by_cases h1 : c = '"'
  · subst h1; rw [if_pos rfl]; rfl
  rw [if_neg h1]
  by_cases h2 : c = '\\'
  · subst h2; rw [if_pos rfl]; rfl
  rw [if_neg h2]
  by_cases h3 : c = '\x08'
  · subst h3; rw [if_pos rfl]; rfl
  rw [if_neg h3]
  by_cases h4 : c = '\x09'
  · subst h4; rw [if_pos rfl]; rfl
  rw [if_neg h4]
  by_cases h5 : c = '\x0a'
  · subst h5; rw [if_pos rfl]; rfl
  rw [if_neg h5]
  by_cases h6 : c = '\x0c'
  · subst h6; rw [if_pos rfl]; rfl
  rw [if_neg h6]
  by_cases h7 : c = '\x0d'
  · subst h7; rw [if_pos rfl]; rfl
  rw [if_neg h7]
  by_cases h8 : c.toNat < 32
  · rw [if_pos h8]
    have e3 := hexVal_hexDigitChar (c.toNat / 16) (by omega)
    have e4 := hexVal_hexDigitChar (c.toNat % 16) (by omega)
    rw [List.cons_append, List.cons_append, List.cons_append, List.cons_append,
      List.cons_append, List.cons_append, List.nil_append]
    rw [show parseStringBody ('\\' :: 'u' :: '0' :: '0' :: hexDigitChar (c.toNat / 16) ::
          hexDigitChar (c.toNat % 16) :: tail) =
        (match hexVal '0', hexVal '0', hexVal (hexDigitChar (c.toNat / 16)),
            hexVal (hexDigitChar (c.toNat % 16)) with
         | some a, some b, some d, some e =>
           (parseStringBody tail).map fun (s, r) =>
             (Char.ofNat (a * 4096 + b * 256 + d * 16 + e) :: s, r)
         | _, _, _, _ => none) from rfl]
    rw [e3, e4, show hexVal '0' = some 0 from by decide]
    simp only []
    simp only [show (0 : Nat) * 4096 + 0 * 256 + c.toNat / 16 * 16 + c.toNat % 16 = c.toNat
      from by omega, Char.ofNat_toNat]
  · rw [if_neg h8]
    rw [show (([c] ++ tail : List Char)) = c :: tail from rfl,
      parseStringBody_other c tail h1 h2, if_neg h8]

theorem parseStringBody_escapeChars (s rest : List Char) :
    parseStringBody (escapeChars s ++ '"' :: rest) = some (s, rest) := by
  induction s with
  | nil => rfl
  | cons c cs ih =>
    simp only [escapeChars] at ih ⊢
    rw [List.flatMap_cons, List.append_assoc, parseStringBody_escape, ih]
    rfl

theorem skipWs_not_ws (c : Char) (l : List Char) (h : isJsonWs c = false) :
    skipWs (c :: l) = c :: l := by
  rw [skipWs, if_neg]
  simp [h]

theorem digit_not_special (c : Char) (hdig : c.isDigit = true) :
    isJsonWs c = false ∧ c ≠ 'n' ∧ c ≠ 't' ∧ c ≠ 'f' ∧ c ≠ '"' ∧ c ≠ '[' ∧
      c ≠ '\x7b' ∧ c ≠ ']' := by
  have hne : ∀ d : Char, d.isDigit = false → c ≠ d := by
    intro d hd hh
    rw [hh, hd] at hdig
    exact Bool.false_ne_true hdig
  refine ⟨?_, hne 'n' (by decide), hne 't' (by decide), hne 'f' (by decide),
    hne '"' (by decide), hne '[' (by decide), hne '\x7b' (by decide), hne ']' (by decide)⟩
  have h1 := hne ' ' (by decide)
  have h2 := hne '\x09' (by decide)
  have h3 := hne '\x0a' (by decide)
  have h4 := hne '\x0d' (by decide)
  simp [isJsonWs, h1, h2, h3, h4]

theorem intChars_head (m : Int) :
    ∃ c cs, intChars m = c :: cs ∧ (c = '-' ∨ c.isDigit = true) := by
  by_cases hm : m < 0
  · exact ⟨'-', natChars (-m).toNat, by unfold intChars; rw [if_pos hm], Or.inl rfl⟩
  · obtain ⟨c, cs, hc, hdig⟩ := natChars_head_digit m.toNat
    exact ⟨c, cs, by unfold intChars; rw [if_neg hm]; exact hc, Or.inr hdig⟩

theorem printNum_head (n : JNum) :
    ∃ c cs, printNum n = c :: cs ∧ (c = '-' ∨ c.isDigit = true) := by
  obtain ⟨c, cs, hc, hfact⟩ := intChars_head n.m
  by_cases he : n.e = 0
  · exact ⟨c, cs, by unfold printNum; rw [if_pos he]; exact hc, hfact⟩
  · refine ⟨c, cs ++ 'e' :: intChars n.e, ?_, hfact⟩
    unfold printNum
    rw [if_neg he, hc, List.cons_append]

theorem printChars_head_facts (j : Json) :
    ∃ c cs, j.printChars = c :: cs ∧ isJsonWs c = false ∧ c ≠ ']' := by
  cases j with
  | null => exact ⟨'n', _, by rw [Json.printChars], by decide, by decide⟩
  | bool b =>
    cases b with
    | false => exact ⟨'f', _, by rw [Json.printChars], by decide, by decide⟩
    | true => exact ⟨'t', _, by rw [Json.printChars], by decide, by decide⟩
  | num n =>
    obtain ⟨c, cs, hc, hfact⟩ := printNum_head n
    refine ⟨c, cs, by rw [Json.printChars]; exact hc, ?_, ?_⟩
    · rcases hfact with rfl | hdig
      · decide
      · exact (digit_not_special c hdig).1
    · rcases hfact with rfl | hdig
      · decide
      · exact (digit_not_special c hdig).2.2.2.2.2.2.2
  | str s => exact ⟨'"', _, by rw [Json.printChars], by decide, by decide⟩
  | arr l => exact ⟨'[', _, by rw [Json.printChars], by decide, by decide⟩
  | obj l => exact ⟨'\x7b', _, by rw [Json.printChars], by decide, by decide⟩

theorem printElemsChars_cons (j : Json) (t : List Json) :
    ∃ tl, printElemsChars (j :: t) = j.printChars ++ tl := by
  cases t with
  | nil => exact ⟨[], by rw [printElemsChars, List.append_nil]⟩
  | cons x xs => exact ⟨',' :: printElemsChars (x :: xs), by rw [printElemsChars]; simp⟩

theorem printFieldsChars_cons (kv : String × Json) (t : List (String × Json)) :
    ∃ tl, printFieldsChars (kv :: t) =
      '"' :: (escapeChars kv.1.data ++ '"' :: ':' :: kv.2.printChars) ++ tl := by
  obtain ⟨k, v⟩ := kv
  cases t with
  | nil => exact ⟨[], by rw [printFieldsChars, List.append_nil]⟩
  | cons x xs => exact ⟨',' :: printFieldsChars (x :: xs), by rw [printFieldsChars]; simp⟩

theorem mapSet_not_mem {α : Type} (m : List (String × α)) (k : String) (v : α)
    (h : ∀ kv ∈ m, kv.1 ≠ k) : mapSet m k v = m ++ [(k, v)] := by
  induction m with
  | nil => rfl
  | cons kv0 rest ih =>
    obtain ⟨k0, v0⟩ := kv0
    rw [mapSet, if_neg (h (k0, v0) (by simp))]
    rw [ih fun kv hkv => h kv (by simp [hkv])]
    rfl

theorem foldl_mapSet_fresh (fields : List (String × Json)) :
    ∀ acc, (∀ kv ∈ acc, ∀ kv2 ∈ fields, kv.1 ≠ kv2.1) →
    nodupKeysBool (fields.map Prod.fst) = true →
    fields.foldl (fun m kv => mapSet m kv.1 kv.2) acc = acc ++ fields := by
  induction fields with
  | nil =>
    intro acc _ _
    simp
  | cons kv rest ih =>
    intro acc hdisj hnodup
    rw [List.foldl_cons]
    rw [mapSet_not_mem acc kv.1 kv.2 fun kv0 h0 => hdisj kv0 h0 kv (by simp)]
    rw [List.map_cons, nodupKeysBool, Bool.and_eq_true] at hnodup
    have hnotin : kv.1 ∉ rest.map Prod.fst := by
      simpa using hnodup.1
    rw [ih (acc ++ [(kv.1, kv.2)]) ?_ hnodup.2]
    · simp
    · intro kv0 h0 kv2 h2
      rcases List.mem_append.mp h0 with h0a | h0b
      · exact hdisj kv0 h0a kv2 (List.mem_cons_of_mem _ h2)
      · simp only [List.mem_singleton] at h0b
        subst h0b
        intro hh
        exact hnotin (hh ▸ List.mem_map_of_mem Prod.fst h2)

theorem buildObj_nodup (fields : List (String × Json))
    (h : nodupKeysBool (fields.map Prod.fst) = true) : buildObj fields = fields := by
  unfold buildObj
  rw [foldl_mapSet_fresh fields [] (by simp) h, List.nil_append]

set_option maxHeartbeats 2000000 in
theorem parseValue_other (fuel : Nat) (c : Char) (rest : List Char)
    (hws : isJsonWs c = false) (hn : c ≠ 'n') (ht : c ≠ 't') (hf : c ≠ 'f')
    (hq : c ≠ '"') (ha : c ≠ '[') (ho : c ≠ '\x7b') :
    parseValue (fuel + 1) (c :: rest) =
      (parseNumber (c :: rest)).map fun (n, r) => (.num n, r) := by
  rw [parseValue, skipWs_not_ws c rest hws]
  split <;> simp_all

set_option maxHeartbeats 2000000 in
theorem parseValue_arr_cons (fuel : Nat) (c : Char) (rest : List Char)
    (hws : isJsonWs c = false) (hne : c ≠ ']') :
    parseValue (fuel + 1) ('[' :: c :: rest) =
      (parseElems fuel (c :: rest)).map fun (elems, r) => (.arr elems, r) := by
  have h0 : skipWs ('[' :: c :: rest) = '[' :: c :: rest := skipWs_not_ws _ _ (by decide)
  rw [parseValue, h0]
  show (match skipWs (c :: rest) with
    | ']' :: r => some (Json.arr [], r)
    | l => (parseElems fuel l).map fun (elems, r) => (Json.arr elems, r)) = _
  rw [skipWs_not_ws c rest hws]
  split <;> simp_all

theorem delimOk_nil : delimOk [] := by
  intro c hc
  simp at hc

theorem delimOk_comma (l : List Char) : delimOk (',' :: l) := by
  intro c hc
  simp at hc
  subst hc
  exact Or.inl rfl

theorem delimOk_rbracket (l : List Char) : delimOk (']' :: l) := by
  intro c hc
  simp at hc
  subst hc
  exact Or.inr (Or.inl rfl)

theorem delimOk_rbrace (l : List Char) : delimOk ('\x7d' :: l) := by
  intro c hc
  simp at hc
  subst hc
  exact Or.inr (Or.inr rfl)

set_option maxHeartbeats 2000000 in
theorem parseFields_quote (fuel : Nat) (X : List Char) :
    parseFields (fuel + 1) ('"' :: X) =
      (parseStringBody X).bind fun p =>
        match skipWs p.2 with
        | ':' :: r2 =>
          (parseValue fuel r2).bind fun q =>
            match skipWs q.2 with
            | ',' :: r4 => (parseFields fuel r4).bind fun w => some ((⟨p.1⟩, q.1) :: w.1, w.2)
            | '\x7d' :: r4 => some ([(⟨p.1⟩, q.1)], r4)
            | _ => none
        | _ => none := rfl

set_option maxHeartbeats 4000000 in
theorem parse_print_aux (fuel : Nat) :
    (∀ j rest, Json.wfKeys j = true → Json.jsize j ≤ fuel → delimOk rest →
      parseValue fuel (Json.printChars j ++ rest) = some (j, rest)) ∧
    (∀ elems rest, wfKeysElems elems = true → jsizeElems elems ≤ fuel → elems ≠ [] →
      parseElems fuel (printElemsChars elems ++ ']' :: rest) = some (elems, rest)) ∧
    (∀ fields rest, wfKeysFields fields = true → jsizeFields fields ≤ fuel → fields ≠ [] →
      parseFields fuel (printFieldsChars fields ++ '\x7d' :: rest) = some (fields, rest)) := by
  induction fuel with
  | zero =>
    refine ⟨?_, ?_, ?_⟩
    · intro j rest _ hsz _
      exfalso
      cases j <;> simp [Json.jsize] at hsz
    · intro elems rest _ hsz hne
      cases elems with
      | nil => exact absurd rfl hne
      | cons j t => simp [jsizeElems] at hsz
    · intro fields rest _ hsz hne
      cases fields with
      | nil => exact absurd rfl hne
      | cons kv t => simp [jsizeFields] at hsz
  | succ fuel ih =>
    obtain ⟨ihV, ihE, ihF⟩ := ih
    refine ⟨?_, ?_, ?_⟩
    · intro j rest hwf hsz hrest
      cases j with
      | null =>
        simp only [Json.printChars, List.cons_append, List.nil_append]
        rfl
      | bool b =>
        cases b with
        | false =>
          simp only [Json.printChars, List.cons_append, List.nil_append]
          rfl
        | true =>
          simp only [Json.printChars, List.cons_append, List.nil_append]
          rfl
      | str s =>
        simp only [Json.printChars, List.cons_append, List.append_assoc, List.nil_append]
        rw [show parseValue (fuel + 1) ('"' :: (escapeChars s.data ++ '"' :: rest))
            = (parseStringBody (escapeChars s.data ++ '"' :: rest)).map
              (fun p => (Json.str ⟨p.1⟩, p.2)) from rfl]
        rw [parseStringBody_escapeChars]
        rfl
      | num n =>
        obtain ⟨c, cs, hc, hfact⟩ := printNum_head n
        have hfacts : isJsonWs c = false ∧ c ≠ 'n' ∧ c ≠ 't' ∧ c ≠ 'f' ∧ c ≠ '"' ∧
            c ≠ '[' ∧ c ≠ '\x7b' := by
          rcases hfact with rfl | hdig
          · exact ⟨by decide, by decide, by decide, by decide, by decide, by decide, by decide⟩
          · obtain ⟨f1, f2, f3, f4, f5, f6, f7, _⟩ := digit_not_special c hdig
            exact ⟨f1, f2, f3, f4, f5, f6, f7⟩
        rw [show Json.printChars (.num n) = printNum n from by rw [Json.printChars]]
        rw [hc, List.cons_append]
        rw [parseValue_other fuel c (cs ++ rest) hfacts.1 hfacts.2.1 hfacts.2.2.1
          hfacts.2.2.2.1 hfacts.2.2.2.2.1 hfacts.2.2.2.2.2.1 hfacts.2.2.2.2.2.2]
        rw [← List.cons_append, ← hc, parseNumber_printNum n rest hrest]
        rfl
      | arr elems =>
        cases elems with
        | nil =>
          simp only [Json.printChars, printElemsChars, List.cons_append, List.nil_append]
          rfl
        | cons j t =>
          obtain ⟨tl, htl⟩ := printElemsChars_cons j t
          obtain ⟨c, cs, hcc, hws, hne⟩ := printChars_head_facts j
          rw [hcc, List.cons_append] at htl
          have hshape : Json.printChars (.arr (j :: t)) ++ rest
              = '[' :: c :: ((cs ++ tl) ++ ']' :: rest) := by
            rw [Json.printChars, htl]
            simp [List.cons_append, List.append_assoc]
          rw [hshape, parseValue_arr_cons fuel c _ hws hne]
          have hback : (c :: ((cs ++ tl) ++ ']' :: rest) : List Char)
              = printElemsChars (j :: t) ++ ']' :: rest := by
            rw [htl]
            simp [List.cons_append, List.append_assoc]
          rw [hback]
          have hwf' : wfKeysElems (j :: t) = true := by
            have h := hwf
            rw [Json.wfKeys] at h
            exact h
          have hsz' : jsizeElems (j :: t) ≤ fuel := by
            have h := hsz
            rw [Json.jsize] at h
            omega
          rw [ihE (j :: t) rest hwf' hsz' (by simp)]
          rfl
      | obj fields =>
        cases fields with
        | nil =>
          simp only [Json.printChars, printFieldsChars, List.cons_append, List.nil_append]
          rfl
        | cons kv t =>
          obtain ⟨tl, htl⟩ := printFieldsChars_cons kv t
          have hcs0 : printFieldsChars (kv :: t)
              = '"' :: ((escapeChars kv.1.data ++ '"' :: ':' :: kv.2.printChars) ++ tl) := by
            rw [htl]
            simp [List.cons_append]
          have hshape : Json.printChars (.obj (kv :: t)) ++ rest
              = '\x7b' :: '"' :: (((escapeChars kv.1.data ++ '"' :: ':' :: kv.2.printChars) ++ tl)
                ++ '\x7d' :: rest) := by
            rw [Json.printChars, hcs0]
            simp [List.cons_append, List.append_assoc]
          rw [hshape]
          rw [show parseValue (fuel + 1) ('\x7b' :: '"' ::
              (((escapeChars kv.1.data ++ '"' :: ':' :: kv.2.printChars) ++ tl) ++ '\x7d' :: rest))
              = (parseFields fuel ('"' ::
                (((escapeChars kv.1.data ++ '"' :: ':' :: kv.2.printChars) ++ tl) ++ '\x7d' :: rest))).map
                (fun p => (Json.obj (buildObj p.1), p.2)) from rfl]
          have hback : ('"' : Char) :: (((escapeChars kv.1.data ++ '"' :: ':' :: kv.2.printChars) ++ tl)
              ++ '\x7d' :: rest) = printFieldsChars (kv :: t) ++ '\x7d' :: rest := by
            rw [hcs0]
            simp [List.cons_append]
          rw [hback]
          have hwf1 : nodupKeysBool ((kv :: t).map Prod.fst) = true ∧ wfKeysFields (kv :: t) = true := by
            have h := hwf
            rw [Json.wfKeys, Bool.and_eq_true] at h
            exact h
          have hsz' : jsizeFields (kv :: t) ≤ fuel := by
            have h := hsz
            rw [Json.jsize] at h
            omega
          rw [ihF (kv :: t) rest hwf1.2 hsz' (by simp)]
          show some (Json.obj (buildObj (kv :: t)), rest) = some (Json.obj (kv :: t), rest)
          rw [buildObj_nodup _ hwf1.1]
    · intro elems rest hwf hsz hne
      cases elems with
      | nil => exact absurd rfl hne
      | cons j t =>
        have hwf' : Json.wfKeys j = true ∧ wfKeysElems t = true := by
          rw [wfKeysElems, Bool.and_eq_true] at hwf
          exact hwf
        have hszj : Json.jsize j ≤ fuel ∧ jsizeElems t ≤ fuel := by
          rw [jsizeElems] at hsz
          constructor <;> omega
        cases t with
        | nil =>
          rw [show printElemsChars [j] = Json.printChars j from by rw [printElemsChars]]
          rw [parseElems]
          rw [ihV j (']' :: rest) hwf'.1 hszj.1 (delimOk_rbracket rest)]
          rfl
        | cons x xs =>
          rw [show printElemsChars (j :: x :: xs)
              = Json.printChars j ++ ',' :: printElemsChars (x :: xs) from by
            rw [printElemsChars]; simp]
          rw [List.append_assoc, List.cons_append]
          rw [parseElems]
          rw [ihV j (',' :: (printElemsChars (x :: xs) ++ ']' :: rest)) hwf'.1 hszj.1
            (delimOk_comma _)]
          show (parseElems fuel (printElemsChars (x :: xs) ++ ']' :: rest)).bind
              (fun p => some (j :: p.1, p.2)) = some (j :: x :: xs, rest)
          rw [ihE (x :: xs) rest hwf'.2 hszj.2 (by simp)]
          rfl
    · intro fields rest hwf hsz hne
      cases fields with
      | nil => exact absurd rfl hne
      | cons kv t =>
        obtain ⟨k, v⟩ := kv
        have hwf' : Json.wfKeys v = true ∧ wfKeysFields t = true := by
          rw [wfKeysFields, Bool.and_eq_true] at hwf
          exact hwf
        have hszv : Json.jsize v ≤ fuel ∧ jsizeFields t ≤ fuel := by
          rw [jsizeFields] at hsz
          have h2 : Json.jsize v + jsizeFields t + 1 ≤ fuel + 1 := hsz
          constructor <;> omega
        cases t with
        | nil =>
          rw [show printFieldsChars [(k, v)]
              = '"' :: (escapeChars k.data ++ '"' :: ':' :: Json.printChars v) from by
            rw [printFieldsChars]]
          simp only [List.cons_append, List.append_assoc]
          rw [parseFields_quote]
          rw [parseStringBody_escapeChars]
          show (parseValue fuel (Json.printChars v ++ '\x7d' :: rest)).bind
              (fun q =>
                match skipWs q.2 with
                | ',' :: r4 => (parseFields fuel r4).bind fun w =>
                    some ((⟨k.data⟩, q.1) :: w.1, w.2)
                | '\x7d' :: r4 => some ([(⟨k.data⟩, q.1)], r4)
                | _ => none) = some ([(k, v)], rest)
          rw [ihV v ('\x7d' :: rest) hwf'.1 hszv.1 (delimOk_rbrace rest)]
          rfl
        | cons kv2 t2 =>
          rw [show printFieldsChars ((k, v) :: kv2 :: t2)
              = ('"' :: (escapeChars k.data ++ '"' :: ':' :: Json.printChars v))
                ++ ',' :: printFieldsChars (kv2 :: t2) from by
            rw [printFieldsChars]; simp]
          simp only [List.cons_append, List.append_assoc]
          rw [parseFields_quote]
          rw [parseStringBody_escapeChars]
          show (parseValue fuel (Json.printChars v ++ ',' :: (printFieldsChars (kv2 :: t2)
              ++ '\x7d' :: rest))).bind
              (fun q =>
                match skipWs q.2 with
                | ',' :: r4 => (parseFields fuel r4).bind fun w =>
                    some ((⟨k.data⟩, q.1) :: w.1, w.2)
                | '\x7d' :: r4 => some ([(⟨k.data⟩, q.1)], r4)
                | _ => none) = some ((k, v) :: kv2 :: t2, rest)
          rw [ihV v (',' :: (printFieldsChars (kv2 :: t2) ++ '\x7d' :: rest)) hwf'.1 hszv.1
            (delimOk_comma _)]
          show (parseFields fuel (printFieldsChars (kv2 :: t2) ++ '\x7d' :: rest)).bind
              (fun w => some ((⟨k.data⟩, v) :: w.1, w.2)) = some ((k, v) :: kv2 :: t2, rest)
          rw [ihF (kv2 :: t2) rest hwf'.2 hszv.2 (by simp)]
          rfl

theorem printNum_ne_nil (n : JNum) : printNum n ≠ [] := by
  obtain ⟨c, cs, hc, _⟩ := printNum_head n
  rw [hc]
  simp

mutual

theorem jsize_le_print (j : Json) : Json.jsize j ≤ (Json.printChars j).length := by
  cases j with
  | null => rw [Json.jsize, Json.printChars]; simp
  | bool b => cases b <;> (rw [Json.jsize, Json.printChars]; simp)
  | num n =>
    rw [Json.jsize, Json.printChars]
    have h := printNum_ne_nil n
    cases hp : printNum n with
    | nil => exact absurd hp h
    | cons c cs => simp
  | str s => rw [Json.jsize, Json.printChars]; simp
  | arr elems =>
    rw [Json.jsize, Json.printChars]
    have h := jsizeElems_le_print elems
    simp only [List.length_cons, List.length_append, List.length_singleton]
    omega
  | obj fields =>
    rw [Json.jsize, Json.printChars]
    have h := jsizeFields_le_print fields
    simp only [List.length_cons, List.length_append, List.length_singleton]
    omega

theorem jsizeElems_le_print (l : List Json) :
    jsizeElems l ≤ (printElemsChars l).length + 1 := by
  cases l with
  | nil => rw [jsizeElems]; simp
  | cons j t =>
    cases t with
    | nil =>
      rw [jsizeElems, jsizeElems, printElemsChars]
      have h := jsize_le_print j
      omega
    | cons x xs =>
      rw [jsizeElems, show printElemsChars (j :: x :: xs)
        = Json.printChars j ++ ',' :: printElemsChars (x :: xs) from by
          rw [printElemsChars]; simp]
      have h1 := jsize_le_print j
      have h2 := jsizeElems_le_print (x :: xs)
      simp only [List.length_append, List.length_cons]
      omega

theorem jsizeFields_le_print (l : List (String × Json)) :
    jsizeFields l ≤ (printFieldsChars l).length + 1 := by
  cases l with
  | nil => rw [jsizeFields]; simp
  | cons kv t =>
    cases t with
    | nil =>
      rw [jsizeFields, jsizeFields, printFieldsChars]
      have h := jsize_le_print kv.2
      simp only [List.length_cons, List.length_append]
      omega
    | cons kv2 t2 =>
      rw [jsizeFields, show printFieldsChars (kv :: kv2 :: t2)
        = ('"' :: (escapeChars kv.1.data ++ '"' :: ':' :: Json.printChars kv.2))
          ++ ',' :: printFieldsChars (kv2 :: t2) from by
          rw [printFieldsChars]; simp]
      have h1 := jsize_le_print kv.2
      have h2 := jsizeFields_le_print (kv2 :: t2)
      simp only [List.length_append, List.length_cons]
      omega

end

theorem jsonParse_print (j : Json) (hwf : Json.wfKeys j = true) :
    jsonParse (Json.print j) = some j := by
  have hfa := (parse_print_aux ((Json.printChars j).length + 1)).1 j []
    hwf (by have := jsize_le_print j; omega) delimOk_nil
  rw [List.append_nil] at hfa
  show (match parseValue ((Json.printChars j).length + 1) (Json.printChars j) with
    | some (v, rest) => if skipWs rest = [] then some v else none
    | none => none) = some j
  rw [hfa]
  rfl

theorem wfKeys_jsonOfNullableNum (o : Option JNum) : (jsonOfNullableNum o).wfKeys = true := by
  cases o <;> simp [jsonOfNullableNum, Json.wfKeys]

theorem wfKeysElems_map_nullable (l : List (Option JNum)) :
    wfKeysElems (l.map jsonOfNullableNum) = true := by
  induction l with
  | nil => rw [List.map_nil, wfKeysElems]
  | cons o t ih => simp [wfKeysElems, wfKeys_jsonOfNullableNum, ih]

theorem wfKeys_SdmxValue (v : SdmxValue) : (SdmxValue.toJson v).wfKeys = true := by
  rcases v with ⟨id⟩
  cases id <;> simp [SdmxValue.toJson, Json.wfKeys, nodupKeysBool, wfKeysFields]

theorem wfKeysElems_map_values (vs : List SdmxValue) :
    wfKeysElems (vs.map SdmxValue.toJson) = true := by
  induction vs with
  | nil => rw [List.map_nil, wfKeysElems]
  | cons v t ih => simp [wfKeysElems, wfKeys_SdmxValue, ih]

theorem wfKeys_SdmxDimension (d : SdmxDimension) : (SdmxDimension.toJson d).wfKeys = true := by
  rcases d with ⟨id, values⟩
  cases values <;>
    simp [SdmxDimension.toJson, Json.wfKeys, nodupKeysBool, wfKeysFields,
      wfKeysElems_map_values]

theorem wfKeysElems_map_dims (l : List SdmxDimension) :
    wfKeysElems (l.map SdmxDimension.toJson) = true := by
  induction l with
  | nil => rw [List.map_nil, wfKeysElems]
  | cons d t ih => simp [wfKeysElems, wfKeys_SdmxDimension, ih]

theorem map_fst_pair_map {α β : Type} (f : String × α → β) (l : List (String × α)) :
    (l.map fun kv => (kv.1, f kv)).map Prod.fst = l.map Prod.fst := by
  induction l <;> simp_all

theorem wfKeysFields_obs (l : List (String × List (Option JNum))) :
    wfKeysFields (l.map fun kv => (kv.1, Json.arr (kv.2.map jsonOfNullableNum))) = true := by
  induction l with
  | nil => rw [List.map_nil, wfKeysFields]
  | cons kv t ih => simp [wfKeysFields, Json.wfKeys, wfKeysElems_map_nullable, ih]

theorem wfKeys_SdmxSeries (s : SdmxSeries)
    (h : nodupKeysBool (s.observations.map Prod.fst) = true) :
    (SdmxSeries.toJson s).wfKeys = true := by
  have hkeys : ((s.observations.map fun kv =>
      (kv.1, Json.arr (kv.2.map jsonOfNullableNum))).map Prod.fst)
      = s.observations.map Prod.fst := map_fst_pair_map _ _
  simp [SdmxSeries.toJson, Json.wfKeys, nodupKeysBool, wfKeysFields,
    wfKeysElems_map_nullable, wfKeysFields_obs, hkeys, h]

theorem wfKeysFields_series (l : List (String × SdmxSeries))
    (h : ∀ e ∈ l, nodupKeysBool (e.2.observations.map Prod.fst) = true) :
    wfKeysFields (l.map fun kv => (kv.1, SdmxSeries.toJson kv.2)) = true := by
  induction l with
  | nil => rw [List.map_nil, wfKeysFields]
  | cons kv t ih =>
    have h1 := wfKeys_SdmxSeries kv.2 (h kv (by simp))
    have h2 := ih fun e he => h e (List.mem_cons_of_mem _ he)
    simp [wfKeysFields, h1, h2]

theorem wfKeys_SdmxDataSet (ds : SdmxDataSet)
    (h : ∀ l, ds.series = some l → nodupKeysBool (l.map Prod.fst) = true ∧
      ∀ e ∈ l, nodupKeysBool (e.2.observations.map Prod.fst) = true) :
    (SdmxDataSet.toJson ds).wfKeys = true := by
  rcases ds with ⟨series⟩
  cases series with
  | none => simp [SdmxDataSet.toJson, Json.wfKeys, nodupKeysBool, wfKeysFields]
  | some l =>
    obtain ⟨h1, h2⟩ := h l rfl
    have hkeys : ((l.map fun kv => (kv.1, SdmxSeries.toJson kv.2)).map Prod.fst)
        = l.map Prod.fst := map_fst_pair_map _ _
    simp [SdmxDataSet.toJson, Json.wfKeys, nodupKeysBool, wfKeysFields,
      hkeys, h1, wfKeysFields_series l h2]

theorem wfKeysElems_dataSets (l : List SdmxDataSet)
    (h : ∀ ds ∈ l, ∀ sl, ds.series = some sl → nodupKeysBool (sl.map Prod.fst) = true ∧
      ∀ e ∈ sl, nodupKeysBool (e.2.observations.map Prod.fst) = true) :
    wfKeysElems (l.map SdmxDataSet.toJson) = true := by
  induction l with
  | nil => rw [List.map_nil, wfKeysElems]
  | cons ds t ih =>
    have h1 := wfKeys_SdmxDataSet ds (h ds (by simp))
    have h2 := ih fun d hd => h d (List.mem_cons_of_mem _ hd)
    simp [wfKeysElems, h1, h2]

theorem wfKeys_SdmxDimensions (d : SdmxDimensions) :
    (SdmxDimensions.toJson d).wfKeys = true := by
  simp [SdmxDimensions.toJson, Json.wfKeys, nodupKeysBool, wfKeysFields,
    wfKeysElems_map_dims]

theorem wfKeys_SdmxStructure (st : SdmxStructure) :
    (SdmxStructure.toJson st).wfKeys = true := by
  rcases st with ⟨dims⟩
  cases dims with
  | none => simp [SdmxStructure.toJson, Json.wfKeys, nodupKeysBool, wfKeysFields]
  | some d =>
    have hd := wfKeys_SdmxDimensions d
    simp only [SdmxStructure.toJson]
    rw [Json.wfKeys]
    simp [nodupKeysBool, wfKeysFields, hd]

theorem wfKeys_toJson (x : SdmxJsonResponse) (h : wfDoc x) :
    (SdmxJsonResponse.toJson x).wfKeys = true := by
  rcases x with ⟨dataSets, st⟩
  unfold wfDoc at h
  cases dataSets with
  | none =>
    cases st with
    | none => simp [SdmxJsonResponse.toJson, Json.wfKeys, nodupKeysBool, wfKeysFields]
    | some stv =>
      have hst := wfKeys_SdmxStructure stv
      simp only [SdmxJsonResponse.toJson, List.nil_append]
      rw [Json.wfKeys]
      simp [nodupKeysBool, wfKeysFields, hst]
  | some L =>
    have h2 : ∀ ds ∈ L, ∀ sl, ds.series = some sl →
        nodupKeysBool (sl.map Prod.fst) = true ∧
        ∀ e ∈ sl, nodupKeysBool (e.2.observations.map Prod.fst) = true := h
    have hElems := wfKeysElems_dataSets L h2
    have harr : (Json.arr (L.map SdmxDataSet.toJson)).wfKeys = true := by
      rw [Json.wfKeys]
      exact hElems
    cases st with
    | none =>
      simp only [SdmxJsonResponse.toJson, List.append_nil]
      rw [Json.wfKeys]
      simp [nodupKeysBool, wfKeysFields, harr]
    | some stv =>
      have hst := wfKeys_SdmxStructure stv
      simp only [SdmxJsonResponse.toJson]
      rw [Json.wfKeys]
      simp [nodupKeysBool, wfKeysFields, harr, hst]

theorem map_id_of_eq {α : Type} (f : α → α) (l : List α) (h : ∀ a ∈ l, f a = a) :
    l.map f = l := by
  induction l with
  | nil => rfl
  | cons a t ih =>
    rw [List.map_cons, h a (by simp), ih fun b hb => h b (List.mem_cons_of_mem _ hb)]

theorem asNullableNum_ofNullable (o : Option JNum) :
    Json.asNullableNum (jsonOfNullableNum o) = o := by
  cases o <;> rfl

theorem decodeSdmxValue_toJson (v : SdmxValue) :
    decodeSdmxValue (SdmxValue.toJson v) = v := by
  rcases v with ⟨id⟩
  cases id <;> rfl

theorem decodeSdmxDimension_toJson (d : SdmxDimension) :
    decodeSdmxDimension (SdmxDimension.toJson d) = d := by
  rcases d with ⟨id, values⟩
  cases values with
  | none => rfl
  | some vs =>
    simp only [decodeSdmxDimension, SdmxDimension.toJson, Json.getField, Json.asStr,
      Json.asArr, List.lookup, List.cons_append, List.nil_append,
      show (("id" : String) == "id") = true from rfl,
      show (("values" : String) == "id") = false from rfl,
      show (("values" : String) == "values") = true from rfl]
    simp [List.map_map]
    exact map_id_of_eq (decodeSdmxValue ∘ SdmxValue.toJson) vs fun a _ => decodeSdmxValue_toJson a

theorem decodeSdmxSeries_toJson (s : SdmxSeries) :
    decodeSdmxSeries (SdmxSeries.toJson s) = s := by
  rcases s with ⟨attrs, obs⟩
  simp [decodeSdmxSeries, SdmxSeries.toJson, Json.getField, Json.asArr, Json.asObjFields,
    List.map_map, List.lookup]
  refine ⟨map_id_of_eq _ attrs fun a _ => asNullableNum_ofNullable a,
    map_id_of_eq _ obs ?_⟩
  intro kv _
  simp [Function.comp, Json.asArr, List.map_map]
  rw [map_id_of_eq (Json.asNullableNum ∘ jsonOfNullableNum) kv.2
    fun o _ => asNullableNum_ofNullable o]

theorem decodeSdmxDataSet_toJson (ds : SdmxDataSet) :
    decodeSdmxDataSet (SdmxDataSet.toJson ds) = ds := by
  rcases ds with ⟨series⟩
  cases series with
  | none => rfl
  | some l =>
    simp [decodeSdmxDataSet, SdmxDataSet.toJson, Json.getField, Json.asObjFields,
      List.map_map, List.lookup]
    apply map_id_of_eq _ l
    intro kv _
    simp [Function.comp, decodeSdmxSeries_toJson]

theorem decodeSdmxDimensions_toJson (d : SdmxDimensions) :
    decodeSdmxDimensions (SdmxDimensions.toJson d) = d := by
  rcases d with ⟨series, observation⟩
  simp [decodeSdmxDimensions, SdmxDimensions.toJson, Json.getField, Json.asArr,
    List.map_map, List.lookup]
  exact ⟨map_id_of_eq _ series fun a _ => decodeSdmxDimension_toJson a,
    map_id_of_eq _ observation fun a _ => decodeSdmxDimension_toJson a⟩

theorem decodeSdmxStructure_toJson (st : SdmxStructure) :
    decodeSdmxStructure (SdmxStructure.toJson st) = st := by
  rcases st with ⟨dims⟩
  cases dims with
  | none => rfl
  | some d =>
    show SdmxStructure.mk (some (decodeSdmxDimensions (SdmxDimensions.toJson d)))
      = SdmxStructure.mk (some d)
    rw [decodeSdmxDimensions_toJson d]

theorem decodeSdmx_toJson (x : SdmxJsonResponse) :
    decodeSdmx (SdmxJsonResponse.toJson x) = x := by
  rcases x with ⟨dataSets, st⟩
  cases dataSets with
  | none =>
    cases st with
    | none => rfl
    | some stv =>
      show SdmxJsonResponse.mk none (some (decodeSdmxStructure (SdmxStructure.toJson stv)))
        = SdmxJsonResponse.mk none (some stv)
      rw [decodeSdmxStructure_toJson]
  | some L =>
    cases st with
    | none =>
      show SdmxJsonResponse.mk (some ((L.map SdmxDataSet.toJson).map decodeSdmxDataSet)) none
        = SdmxJsonResponse.mk (some L) none
      rw [List.map_map, map_id_of_eq (decodeSdmxDataSet ∘ SdmxDataSet.toJson) L
        fun ds _ => decodeSdmxDataSet_toJson ds]
    | some stv =>
      show SdmxJsonResponse.mk (some ((L.map SdmxDataSet.toJson).map decodeSdmxDataSet))
          (some (decodeSdmxStructure (SdmxStructure.toJson stv)))
        = SdmxJsonResponse.mk (some L) (some stv)
      rw [List.map_map, map_id_of_eq (decodeSdmxDataSet ∘ SdmxDataSet.toJson) L
        fun ds _ => decodeSdmxDataSet_toJson ds, decodeSdmxStructure_toJson]

/-- **C6**: `parseSdmxJson` raises the payload syntax error — `EcbParseError` with the
source's message "Failed to parse ECB JSON response." — on every input string that the
(spec-modelled) platform `JSON.parse` rejects, and for every structurally valid document
`x` (distinct keys in every JS-record-backed map, as any runtime value has) the round
trip holds: `parseSdmxJson (serialize x) = .ok x`, with `serialize` the spec-modelled
`JSON.stringify`. -/
theorem parse_serialize_roundtrip :
    (∀ s : String, jsonParse s = none →
      parseSdmxJson s = .error (.parseError "Failed to parse ECB JSON response.")) ∧
    (∀ x : SdmxJsonResponse, wfDoc x → parseSdmxJson (serializeSdmx x) = .ok x) := by
  constructor
  · intro s h
    unfold parseSdmxJson
    rw [h]
  · intro x hwf
    unfold parseSdmxJson serializeSdmx
    rw [jsonParse_print _ (wfKeys_toJson x hwf)]
    show Except.ok (decodeSdmx (SdmxJsonResponse.toJson x)) = Except.ok x
    rw [decodeSdmx_toJson]

/-- Witness for **C6**: `"not json"` is rejected by the modelled `JSON.parse`, the
multi-currency fixture is a structurally valid document, and the theorem applied to
both gives the syntax error and the exact round trip. -/
theorem parse_serialize_roundtrip_witness :
    jsonParse "not json" = none ∧ wfDoc MULTI_CURRENCY_RESPONSE ∧
    parseSdmxJson "not json" = .error (.parseError "Failed to parse ECB JSON response.") ∧
    parseSdmxJson (serializeSdmx MULTI_CURRENCY_RESPONSE) = .ok MULTI_CURRENCY_RESPONSE := by
  have h1 : jsonParse "not json" = none := by rfl
  have h2 : wfDoc MULTI_CURRENCY_RESPONSE := by
    intro ds hds l hl
    simp only [MULTI_CURRENCY_RESPONSE, Option.getD_some, List.mem_singleton] at hds
    subst hds
    simp only [Option.some_inj] at hl
    subst hl
    refine ⟨by decide, ?_⟩
    intro e he
    simp only [List.mem_cons, List.not_mem_nil, or_false] at he
    rcases he with rfl | rfl <;> decide
  exact ⟨h1, h2, parse_serialize_roundtrip.1 "not json" h1,
    parse_serialize_roundtrip.2 MULTI_CURRENCY_RESPONSE h2⟩

end Ecb
